import Mathlib

/-!
Verification of the prism ingestion-to-search pipeline.

This file gives a shallow embedding, in Lean 4, of the parts of the
`sjanney/prism` repository that the claims C1..C10 are about:

* `src/backend/database.py` — the SQLite storage layer (`Database`),
* `src/backend/engine.py` — the vector cache and search ranking
  (`LocalSearchEngine.search`),
* `src/backend/ingestion/config_loader.py` — the declarative config loader,
* `src/backend/ingestion/registry.py` — format auto-detection and loader
  construction,
* `src/backend/video_utils.py` — video frame extraction.

Modelling conventions:

* Machine floats (numpy `float32`, Python `float`) are modelled by exact
  rationals `ℚ`; the verified claims are about dimensions, ordering, and
  dedup structure, not floating-point rounding.
* SQLite tables are modelled as Lean lists of row structures, in rowid
  order; `AUTOINCREMENT` ids come from explicit counters carried in the
  state.
* External collaborators (the embedding model, `datetime` parsing
  primitives, the filesystem) enter as explicit function parameters or as
  observation records, exactly at the points where the Python code calls
  out of the modelled unit.
* Python exceptions are modelled with `Except`/`Option` results.
-/

namespace Prism

/-! ### Small Python-string utilities

The Python code uses `str.startswith`, the `in` substring operator and
f-string formatting.  They are modelled on `List Char` so that everything
kernel-evaluates. -/

/-- Boolean substring test on character lists: true iff `pat` occurs as a
contiguous infix. Models Python's `pat in s`. -/
def hasInfixChars (pat : List Char) : List Char → Bool
  | [] => pat.isEmpty
  | l@(_ :: rest) => pat.isPrefixOf l || hasInfixChars pat rest

/-- Python's `pat in s` substring operator. -/
def pyContains (s pat : String) : Bool := hasInfixChars pat.toList s.toList

/-- Python's `s.startswith(pre)`. -/
def pyStartsWith (s pre : String) : Bool := pre.toList.isPrefixOf s.toList

/-- Python's `s.lower()` (ASCII, which is all the registry compares). -/
def pyLower (s : String) : String := String.mk (s.toList.map Char.toLower)

/-- Decimal digit to character ('0'..'9'); inputs ≥ 9 all map to '9'
(never reached: arguments are `n % 10` or a digit below 10). -/
def digitChar10 : Nat → Char
  | 0 => '0' | 1 => '1' | 2 => '2' | 3 => '3' | 4 => '4'
  | 5 => '5' | 6 => '6' | 7 => '7' | 8 => '8' | _ => '9'

/-- Fuelled most-significant-first decimal digit rendering of a positive
natural (empty on 0 or exhausted fuel; fuel `n` always suffices for `n`). -/
def natDigitsAux : Nat → Nat → List Char
  | 0, _ => []
  | _ + 1, 0 => []
  | fuel + 1, n + 1 => natDigitsAux fuel ((n + 1) / 10) ++ [digitChar10 ((n + 1) % 10)]

/-- Decimal rendering of a natural number. -/
def natDigits (n : Nat) : List Char :=
  if n = 0 then ['0'] else natDigitsAux n n

/-- Python's `int(x)` on a rational: truncation toward zero. -/
def pyInt (q : ℚ) : Int := if 0 ≤ q then q.floor else q.ceil

/-- Fixed-point rendering with two decimals, modelling the f-string
`f"{x:.2f}"` used for video-frame virtual paths.  The last-centisecond
rounding of IEEE-754 formatting is abstracted by truncation toward zero;
the claims rely only on the digit alphabet and on exact values (the
timestamps in the verified scenarios are exact at two decimals). -/
def fmtTwoDec (q : ℚ) : String :=
  let centi : Int := pyInt (q * 100)
  let mag : Nat := centi.natAbs
  let body : List Char :=
    natDigits (mag / 100) ++ ['.'] ++ [digitChar10 (mag % 100 / 10), digitChar10 (mag % 10)]
  if centi < 0 then String.mk ('-' :: body) else String.mk body

/-! ### Storage layer — `src/backend/database.py`

`frames` and `embeddings` rows, in rowid order.  Columns not read by any
claim (`timestamp DEFAULT CURRENT_TIMESTAMP`, `indexed_at`) are omitted;
`indexed_at` is only ever set to "now" and displayed. -/

/-- One row of the `frames` table. -/
structure FrameRow where
  id : Nat
  frame_path : String
  file_hash : Option String
  source_type : String
  width : Nat
  height : Nat
deriving Repr, DecidableEq

/-- One row of the `embeddings` table.  `vector BLOB` (a serialized
float32 array) is modelled as `List ℚ`; `bbox TEXT` (a JSON int list) as
`Option (List Int)`. -/
structure EmbRow where
  id : Nat
  frame_id : Nat
  embedding_type : String
  object_class : Option String
  bbox : Option (List Int)
  vector : List ℚ
deriving Repr, DecidableEq

/-- The SQLite database state: both tables plus the `AUTOINCREMENT`
counters (SQLite with AUTOINCREMENT never reuses a rowid). -/
structure DB where
  frames : List FrameRow
  embeddings : List EmbRow
  nextFrameId : Nat
  nextEmbId : Nat
deriving Repr, DecidableEq

/-- The empty database produced by `init_db` (counters start at 1:
SQLite rowids are positive). -/
def DB.empty : DB := ⟨[], [], 1, 1⟩

/-- `Database.get_source_type`: determine source type from path. -/
def get_source_type (path : String) : String :=
  if pyStartsWith path "s3://" then "s3"
  else if pyStartsWith path "azure://" then "azure"
  else if pyContains path "::frame_" then "video"
  else "local"

/-- One element of the `embeddings_list` argument of
`Database.save_frame_and_embeddings`: a dict `{type, class, bbox,
embedding}`. -/
structure EmbInput where
  etype : String
  cls : Option String
  bbox : Option (List Int)
  embedding : List ℚ
deriving Repr, DecidableEq

/-- The `SELECT id FROM frames WHERE frame_path = ?` + `DELETE FROM
embeddings WHERE frame_id = ?` fallback of `save_frame_and_embeddings`
(the "handle REPLACE case" branch).  Returns the updated database and the
recovered frame id (0 stands for SQL NULL when, impossibly, the row is
absent right after its insertion). -/
def recoverFrameId (db : DB) (path : String) : DB × Nat :=
  match db.frames.find? (fun f => f.frame_path == path) with
  | some f =>
      ({ db with embeddings := db.embeddings.filter (fun e => ¬ (e.frame_id == f.id)) }, f.id)
  | none => (db, 0)

/-- Append the new embedding rows (`INSERT INTO embeddings ...` loop),
threading the AUTOINCREMENT counter. -/
def insertEmbRows (items : List EmbInput) (fid : Nat) (nextId : Nat) : List EmbRow × Nat :=
  match items with
  | [] => ([], nextId)
  | item :: rest =>
      let (tail, n) := insertEmbRows rest fid (nextId + 1)
      (⟨nextId, fid, item.etype, item.cls, item.bbox, item.embedding⟩ :: tail, n)

/-- `Database.save_frame_and_embeddings`.

`INSERT OR REPLACE INTO frames (frame_path, ...) VALUES (...)`: on a
`frame_path` UNIQUE conflict SQLite deletes the conflicting row and
inserts a fresh row; since the `id` column is not supplied, the fresh row
gets a new AUTOINCREMENT id, and `cursor.lastrowid` is that (nonzero) new
id.  The Python code then runs

    if frame_id is None or frame_id == 0:  # look up id, delete old embeddings

which is modelled verbatim below; the new embedding rows are inserted
against the obtained frame id and the transaction commits. -/
def save_frame_and_embeddings (db : DB) (file_path : String) (width height : Nat)
    (embeddings_list : List EmbInput) (file_hash : Option String) : DB :=
  let source_type := get_source_type file_path
  let newId := db.nextFrameId
  let db1 : DB :=
    { db with
      frames := db.frames.filter (fun f => ¬ (f.frame_path == file_path)) ++
        [⟨newId, file_path, file_hash, source_type, width, height⟩]
      nextFrameId := newId + 1 }
  let lastrowid : Option Nat := some newId
  let handled : DB × Nat :=
    match lastrowid with
    | none => recoverFrameId db1 file_path
    | some fid => if fid == 0 then recoverFrameId db1 file_path else (db1, fid)
  let db2 := handled.1
  let frame_id := handled.2
  let inserted := insertEmbRows embeddings_list frame_id db2.nextEmbId
  { db2 with embeddings := db2.embeddings ++ inserted.1, nextEmbId := inserted.2 }

/-- `Database.get_column_vectors`: `SELECT id, vector FROM embeddings`. -/
def get_column_vectors (db : DB) : List (Nat × List ℚ) :=
  db.embeddings.map (fun e => (e.id, e.vector))

/-- A frame id is *live* when a `frames` row with that id exists. -/
def DB.frameIdLive (db : DB) (fid : Nat) : Prop :=
  ∃ f ∈ db.frames, f.id = fid

/-- An embedding row is *orphaned* when its `frame_id` references no
existing `frames` row (the rows `vacuum_database` deletes). -/
def DB.orphanedEmbeddings (db : DB) : List EmbRow :=
  db.embeddings.filter (fun e => db.frames.all (fun f => ¬ (f.id == e.frame_id)))

/-! Concrete scenario for claim C1: the same path indexed twice. -/

/-- A full-image embedding input with the given vector. -/
def fullImageInput (v : List ℚ) : EmbInput := ⟨"full_image", none, none, v⟩

/-- First save of `a.jpg` into a fresh database. -/
def dbAfterFirstSave : DB :=
  save_frame_and_embeddings DB.empty "a.jpg" 640 480 [fullImageInput [1]] (some "h1")

/-- Re-index of the same path `a.jpg` with a new embedding list. -/
def dbAfterResave : DB :=
  save_frame_and_embeddings dbAfterFirstSave "a.jpg" 640 480 [fullImageInput [0]] (some "h1")

/-! ### Vector cache & search — `src/backend/engine.py`

`LocalSearchEngine.search` is modelled from the point where the query
text has already been embedded (the SigLIP call is an external
collaborator): the function takes the query vector, the engine's cache
state (`_emb_ids`/`_emb_matrix`, `none` when invalidated), the database,
`limit` and `min_confidence`, and returns the outcome together with the
cache state left behind. -/

/-- The engine's in-memory vector cache: `_emb_ids` and the row-major
`_emb_matrix`. -/
structure VectorCache where
  emb_ids : List Nat
  emb_matrix : List (List ℚ)
deriving Repr, DecidableEq

/-- The `DimensionMismatchError(expected, actual)` payload
(`src/backend/errors.py`, PSM-3001). -/
structure DimensionMismatchError where
  expected : Nat
  actual : Nat
deriving Repr, DecidableEq

/-- `np.stack(valid_vectors).shape[1]`: the common row width of the
cached matrix. -/
def matrixWidth (m : List (List ℚ)) : Nat :=
  match m with
  | [] => 0
  | v :: _ => v.length

/-- `np.dot` of two equal-length vectors. -/
def dot (v q : List ℚ) : ℚ :=
  (v.zip q).foldl (fun acc p => acc + p.1 * p.2) 0

/-- Ascending order used to model `np.argsort(scores)`: by score, with
ties in ascending position order.  numpy's default argsort
(quicksort/introsort) guarantees *no* tie order in general; it is
position-stable exactly when it runs its small-array insertion sort.
Accordingly, the theorems below either do not depend on this model's tie
order at all, or assert tie order only for score arrays small enough
(two rows) to sit in that insertion-sort regime.  The code then reverses
the result (`[::-1]`). -/
def argsortRel (a b : Nat × ℚ) : Prop :=
  a.2 < b.2 ∨ (a.2 = b.2 ∧ a.1 ≤ b.1)

instance : DecidableRel argsortRel := fun a b =>
  inferInstanceAs (Decidable (a.2 < b.2 ∨ (a.2 = b.2 ∧ a.1 ≤ b.1)))

instance : IsTotal (Nat × ℚ) argsortRel :=
  ⟨fun a b => by
    rcases lt_trichotomy a.2 b.2 with h | h | h
    · exact Or.inl (Or.inl h)
    · rcases Nat.le_total a.1 b.1 with h1 | h1
      · exact Or.inl (Or.inr ⟨h, h1⟩)
      · exact Or.inr (Or.inr ⟨h.symm, h1⟩)
    · exact Or.inr (Or.inl h)⟩

instance : IsTrans (Nat × ℚ) argsortRel :=
  ⟨fun a b c hab hbc => by
    rcases hab with h | ⟨he, h1⟩
    · rcases hbc with h2 | ⟨he2, _⟩
      · exact Or.inl (h.trans h2)
      · exact Or.inl (he2 ▸ h)
    · rcases hbc with h2 | ⟨he2, h3⟩
      · exact Or.inl (he ▸ h2)
      · exact Or.inr ⟨he.trans he2, h1.trans h3⟩⟩

/-- Steps 3–4 of `search`: cosine scores against every cached row, the
optional `min_confidence` filter, `np.argsort(...)[::-1][:limit]`.
Returns `(cache row position, score)` pairs, best first.  The
`argsortRel` insertion sort resolves score ties deterministically
(ascending position before the reversal), which numpy's default argsort
only matches below its insertion-sort threshold; conclusions that depend
on the tie order are therefore drawn only in that regime. -/
def topIdxScores (matrix : List (List ℚ)) (q : List ℚ) (limit : Nat) (min_confidence : ℚ) :
    List (Nat × ℚ) :=
  let scores := matrix.map (fun v => dot v q)
  let indexed := (List.range scores.length).zip scores
  let pool :=
    if 0 < min_confidence then indexed.filter (fun p => decide (min_confidence ≤ p.2))
    else indexed
  ((List.insertionSort argsortRel pool).reverse).take limit

/-- The metadata row `get_metadata_by_ids` hydrates for one embedding id
(the `embeddings ⋈ frames` join). -/
structure EmbMeta where
  file_path : String
  embedding_type : String
  object_class : Option String
  bbox : Option (List Int)
  width : Nat
  height : Nat
  source_type : String
deriving Repr, DecidableEq

/-- `Database.get_metadata_by_ids` restricted to a single id: the join of
the embedding row with its frame row; `none` when either side is missing
(exactly when the SQL join produces no row for that id). -/
def get_metadata_by_id (db : DB) (pk : Nat) : Option EmbMeta :=
  match db.embeddings.find? (fun e => e.id == pk) with
  | none => none
  | some e =>
      match db.frames.find? (fun f => f.id == e.frame_id) with
      | none => none
      | some f =>
          some ⟨f.frame_path, e.embedding_type, e.object_class, e.bbox, f.width, f.height,
            f.source_type⟩

/-- `Database.get_objects_for_frame`: the distinct non-null
`object_class` values of the frame's embedding rows. -/
def get_objects_for_frame (db : DB) (path : String) : List String :=
  (db.embeddings.filterMap (fun e =>
    match e.object_class with
    | none => none
    | some c =>
        if (db.frames.find? (fun f => f.id == e.frame_id && f.frame_path == path)).isSome
        then some c else none)).dedup

/-- `LocalSearchEngine._generate_reasoning` (the unused `query` parameter
is dropped).  Score thresholds are the source's float literals as exact
rationals. -/
def generate_reasoning (match_type : String) (object_class : Option String) (score : ℚ) :
    String :=
  let clsTruthy := match object_class with
    | some c => ¬ (c == "")
    | none => false
  if match_type == "object_crop" && clsTruthy then
    let c := object_class.getD ""
    if mkRat 35 100 < score then "Strong match on detected " ++ c
    else if mkRat 25 100 < score then "Moderate match on " ++ c
    else "Possible " ++ c ++ " match"
  else
    if mkRat 35 100 < score then "Strong visual semantic match"
    else if mkRat 28 100 < score then "Moderate scene similarity"
    else if mkRat 20 100 < score then "Weak visual correlation"
    else "Potential match"

/-- One entry of the list `search` returns. -/
structure SearchResult where
  path : String
  confidence : ℚ
  reasoning : String
  width : Nat
  height : Nat
  bbox : Option (List Int)
  match_type : String
  object_class : Option String
  detected_objects : List String
  source_type : String
deriving Repr, DecidableEq

/-- The result record built for one kept row (the dict appended to
`final_results`). -/
def mkSearchResult (db : DB) (meta : EmbMeta) (score : ℚ) : SearchResult :=
  { path := meta.file_path
    confidence := score
    reasoning := generate_reasoning meta.embedding_type meta.object_class score
    width := meta.width
    height := meta.height
    bbox := meta.bbox
    match_type := meta.embedding_type
    object_class := meta.object_class
    detected_objects := get_objects_for_frame db meta.file_path
    source_type := meta.source_type }

/-- Step 6 of `search`: walk the ranked `(embedding id, score)` list,
hydrate metadata, and keep only the first row seen for each distinct
frame path (`seen_paths`). -/
def dedupLoop (db : DB) : List (Nat × ℚ) → List String → List SearchResult
  | [], _ => []
  | (pk, score) :: rest, seen =>
      match get_metadata_by_id db pk with
      | none => dedupLoop db rest seen
      | some meta =>
          if seen.contains meta.file_path then dedupLoop db rest seen
          else mkSearchResult db meta score :: dedupLoop db rest (meta.file_path :: seen)

/-- The ranked top list as `(embedding id, score)` pairs
(`top_ids = [self._emb_ids[i] for i in top_indices]` zipped with
`top_scores`), best first. -/
def rankedEntries (cache : VectorCache) (query_emb : List ℚ) (limit : Nat)
    (min_confidence : ℚ) : List (Nat × ℚ) :=
  (topIdxScores cache.emb_matrix query_emb limit min_confidence).map
    (fun p => (cache.emb_ids.getD p.1 0, p.2))

/-- The frame path an embedding id hydrates to, when its join row
exists. -/
def metaPath (db : DB) (pk : Nat) : Option String :=
  (get_metadata_by_id db pk).map (fun m => m.file_path)

/-- `search` once a cache is present (everything after the cache-loading
block): the empty-matrix early return, the dimension-mismatch check,
ranking, hydration and dedup. -/
def searchWithCache (cache : VectorCache) (db : DB) (query_emb : List ℚ)
    (limit : Nat) (min_confidence : ℚ) :
    Except DimensionMismatchError (List SearchResult) :=
  if cache.emb_matrix.length = 0 then .ok []
  else if ¬ (matrixWidth cache.emb_matrix = query_emb.length) then
    .error ⟨query_emb.length, matrixWidth cache.emb_matrix⟩
  else
    .ok (dedupLoop db (rankedEntries cache query_emb limit min_confidence) [])

/-- `LocalSearchEngine.search` from the query vector on: when no cache is
set, read `(id, vector)` pairs from storage, keep only the rows whose
width equals the active model's output dimensionality (`expected_dim`),
and return `[]` early when nothing remains; then run the cached search.
Also returns the cache state the engine is left with. -/
def search (cacheState : Option VectorCache) (db : DB) (query_emb : List ℚ)
    (limit : Nat) (min_confidence : ℚ) :
    Except DimensionMismatchError (List SearchResult) × Option VectorCache :=
  let expected_dim := query_emb.length
  match cacheState with
  | none =>
      let rows := get_column_vectors db
      if rows.isEmpty then (.ok [], none)
      else
        let valid := rows.filter (fun r => r.2.length == expected_dim)
        if valid.isEmpty then (.ok [], none)
        else
          let cache : VectorCache := ⟨valid.map (fun r => r.1), valid.map (fun r => r.2)⟩
          (searchWithCache cache db query_emb limit min_confidence, some cache)
  | some cache => (searchWithCache cache db query_emb limit min_confidence, some cache)

/-- `LocalSearchEngine.invalidate_cache`. -/
def invalidate_cache (_cacheState : Option VectorCache) : Option VectorCache := none

/-! ### Declarative config loader — `src/backend/ingestion/config_loader.py`

Parsed YAML/JSON values and data rows are modelled by one Python-value
type `PyVal δ`, where `δ` stands for the opaque `datetime.datetime`
objects handed back by the external `datetime` library. -/

/-- A parsed Python value as it appears in configs and data rows. -/
inductive PyVal (δ : Type) where
  | str (s : String)
  | num (x : ℚ)
  | dt (d : δ)
  | dict (fields : List (String × PyVal δ))
  | pynone
deriving Repr

/-- Python `dict.get` on an association list (first binding wins, like a
dict built left to right with distinct keys). -/
def lookupField {δ : Type} (fields : List (String × PyVal δ)) (k : String) :
    Option (PyVal δ) :=
  (fields.find? (fun p => p.1 == k)).map (fun p => p.2)

/-- Python `key in dict` (present even when the stored value is None). -/
def hasKey {δ : Type} (fields : List (String × PyVal δ)) (k : String) : Bool :=
  (lookupField fields k).isSome

/-- Python truthiness of a value (`if not v`). -/
def pyTruthy {δ : Type} : PyVal δ → Bool
  | .str s => ¬ (s == "")
  | .num x => ¬ (x == 0)
  | .dt _ => true
  | .dict fields => ¬ fields.isEmpty
  | .pynone => false

/-- Python `str(v)`.  The renderings of non-string values stand in for
CPython's (no claim depends on them). -/
def pyStr {δ : Type} : PyVal δ → String
  | .str s => s
  | .num x => toString x
  | .dt _ => "<datetime>"
  | .dict _ => "<dict>"
  | .pynone => "None"

/-- Python's `s.split(sep)` for a one-character separator, structurally
on characters (`"a..b".split "."` gives `["a", "", "b"]`, `""` gives
`[""]`, as in Python). -/
def splitChars (sep : Char) : List Char → List (List Char)
  | [] => [[]]
  | x :: rest =>
      match splitChars sep rest with
      | [] => [[]]
      | h :: t => if x == sep then [] :: h :: t else (x :: h) :: t

/-- `field_path.split(".")`. -/
def pySplitDot (s : String) : List String := (splitChars '.' s.toList).map String.mk

/-- `ConfigLoader._get_field_value`: resolve a dot-notation path against
a row, returning `none` for missing keys, `None` values, or non-dict
intermediate values. -/
def getFieldGo {δ : Type} : List String → PyVal δ → Option (PyVal δ)
  | [], v => some v
  | part :: rest, v =>
      match v with
      | .dict fields =>
          match lookupField fields part with
          | none => none
          | some .pynone => none
          | some v2 => getFieldGo rest v2
      | _ => none

/-- `ConfigLoader._get_field_value` entry point (empty path → `None`). -/
def get_field_value {δ : Type} (row : PyVal δ) (field_path : String) : Option (PyVal δ) :=
  if field_path == "" then none
  else getFieldGo (pySplitDot field_path) row

/-- The `datetime`-library calls `_parse_timestamp` makes, as an external
collaborator: `datetime.fromtimestamp` (total here; platform range errors
are out of scope), `datetime.strptime value fmt` and
`datetime.fromisoformat` (`none` models `ValueError`). -/
structure TimeParsers (δ : Type) where
  fromtimestamp : ℚ → δ
  strptime : String → String → Option δ
  fromisoformat : String → Option δ

/-- The three hard-coded fallback strftime patterns. -/
def commonFormats : List String :=
  ["%Y-%m-%d %H:%M:%S", "%Y-%m-%dT%H:%M:%S", "%Y/%m/%d %H:%M:%S"]

/-- `ConfigLoader._parse_timestamp`: native datetime passthrough; numeric
epoch (milliseconds when the value exceeds 1e12, else seconds); then for
strings the configured pattern, ISO-8601 (after `Z → +00:00`), the common
fallback patterns; otherwise `ValueError`.  Non-temporal, non-numeric,
non-string values fall through every `isinstance` check and also raise. -/
def parse_timestamp {δ : Type} (P : TimeParsers δ) (timestamp_format : Option String) :
    PyVal δ → Except String δ
  | .dt d => .ok d
  | .num x =>
      if (1000000000000 : ℚ) < x then .ok (P.fromtimestamp (x / 1000))
      else .ok (P.fromtimestamp x)
  | .str s =>
      let fromFmt : Option δ :=
        match timestamp_format with
        | some fmt => P.strptime s fmt
        | none => none
      match fromFmt with
      | some d => .ok d
      | none =>
          match P.fromisoformat (s.replace "Z" "+00:00") with
          | some d => .ok d
          | none =>
              match commonFormats.findSome? (fun fmt => P.strptime s fmt) with
              | some d => .ok d
              | none => .error ("Unable to parse timestamp: " ++ s)
  | .dict _ => .error "Unable to parse timestamp: <dict>"
  | .pynone => .error "Unable to parse timestamp: None"

/-- The state a successfully constructed `ConfigLoader` carries: the
parsed config and the resolved dataset path. -/
structure ConfigLoaderState (δ : Type) where
  config : List (String × PyVal δ)
  dataset_path : String

/-- The mapping entries `_validate_config` requires. -/
def requiredMappingFields : List String := ["frame_path", "timestamp", "camera_angle"]

/-- `ConfigLoader._validate_config`.  `field not in m` is dict-key
membership when the mapping is a dict and substring membership when it is
(degenerately) a string; `in` on any other value raises `TypeError`,
which also aborts construction. -/
def validate_config {δ : Type} (config : List (String × PyVal δ)) : Except String Unit :=
  if ¬ hasKey config "format" then .error "Config must specify 'format' field"
  else if ¬ hasKey config "mapping" then .error "Config must specify 'mapping' field"
  else
    match lookupField config "mapping" with
    | some (.dict m) =>
        match requiredMappingFields.find? (fun f => ! hasKey m f) with
        | some f => .error ("Config mapping must include '" ++ f ++ "' field")
        | none => .ok ()
    | some (.str s) =>
        match requiredMappingFields.find? (fun f => ! pyContains s f) with
        | some f => .error ("Config mapping must include '" ++ f ++ "' field")
        | none => .ok ()
    | _ => .error "TypeError: argument of type is not iterable"

/-- `ConfigLoader.__init__`: existence check on the config file, loading
(the parsed value is an input here; YAML/JSON decoding is external),
dataset-path defaulting, then `_validate_config`.  Any error aborts
construction — no loader state is produced. -/
def configLoaderInit {δ : Type} (config_file_exists : Bool)
    (config : List (String × PyVal δ)) (config_dir : String)
    (dataset_path : Option String) : Except String (ConfigLoaderState δ) :=
  if ¬ config_file_exists then .error "Config file not found"
  else
    let ds := match dataset_path with
      | some p => p
      | none => config_dir
    match validate_config config with
    | .error e => .error e
    | .ok _ => .ok ⟨config, ds⟩

/-- `FrameMetadata` (pydantic model in `src/backend/ingestion/base.py`). -/
structure FrameMetadata (δ : Type) where
  frame_id : Option Nat
  frame_path : String
  timestamp : δ
  gps_lat : Option ℚ
  gps_lon : Option ℚ
  weather : Option String
  camera_angle : String
  sensor_type : String
  original_path : Option String

/-- `Path(p).is_absolute()` on POSIX. -/
def isAbsolutePath (p : String) : Bool := pyStartsWith p "/"

/-- Resolution of a possibly relative `frame_path` against the dataset
root (`self.dataset_path / frame_path`); `Path.resolve()`'s
canonicalization of `.`/`..` segments is abstracted away. -/
def resolveFramePath (dataset_path p : String) : String :=
  if isAbsolutePath p then p else dataset_path ++ "/" ++ p

/-- A mapping entry looked up for field extraction: the Python code does
`mapping.get(name)` and treats a falsy result as missing, then uses the
value as a dot-path string — any non-string raises inside the row's
`try`, skipping the row. -/
def mappingFieldPath {δ : Type} (mapping : List (String × PyVal δ)) (name : String) :
    Option String :=
  match lookupField mapping name with
  | some v => if pyTruthy v then
      match v with
      | .str s => some s
      | _ => none
    else none
  | none => none

/-- `ConfigLoader._map_row_to_frame_metadata`: one row to a canonical
`FrameMetadata`, `none` when the row is skipped (missing/falsy required
fields, timestamp parse failure, or any raised error — the whole body is
wrapped in `try/except` returning `None`). -/
def map_row_to_frame_metadata {δ : Type} (P : TimeParsers δ) (st : ConfigLoaderState δ)
    (row : PyVal δ) : Option (FrameMetadata δ) :=
  match lookupField st.config "mapping" with
  | some (.dict mapping) =>
      -- frame_path (required)
      (match mappingFieldPath mapping "frame_path" with
      | none => none
      | some fpField =>
          match get_field_value row fpField with
          | none => none
          | some fpVal =>
              if ¬ pyTruthy fpVal then none
              else
                match fpVal with
                | .str fp =>
                    let frame_path := resolveFramePath st.dataset_path fp
                    -- timestamp (required)
                    (match mappingFieldPath mapping "timestamp" with
                    | none => none
                    | some tsField =>
                        match get_field_value row tsField with
                        | none => none
                        | some tsVal =>
                            match parse_timestamp P
                                (match lookupField st.config "timestamp_format" with
                                 | some (.str f) => some f
                                 | _ => none) tsVal with
                            | .error _ => none
                            | .ok timestamp =>
                                -- camera_angle (required mapping, optional value)
                                (match mappingFieldPath mapping "camera_angle" with
                                | none => none
                                | some caField =>
                                    let camera_angle? : Option String :=
                                      match get_field_value row caField with
                                      | some v => some (pyStr v)
                                      | none =>
                                          match lookupField mapping "camera_angle_default" with
                                          | some (.str s) => some s
                                          | some _ => none  -- non-str default: pydantic error
                                          | none => some "UNKNOWN"
                                    match camera_angle? with
                                    | none => none
                                    | some camera_angle =>
                                        -- optional fields
                                        let optNum : String → Option ℚ := fun name =>
                                          match lookupField mapping name with
                                          | some v =>
                                              if pyTruthy v then
                                                match v with
                                                | .str s =>
                                                    match get_field_value row s with
                                                    | some (.num x) => some x
                                                    | _ => none  -- float() failed: pass
                                                | _ => none
                                              else none
                                          | none => none
                                        let optStr : String → Option String := fun name =>
                                          match lookupField mapping name with
                                          | some v =>
                                              if pyTruthy v then
                                                match v with
                                                | .str s =>
                                                    match get_field_value row s with
                                                    | some w => some (pyStr w)
                                                    | none => none
                                                | _ => none
                                              else none
                                          | none => none
                                        let sensor_type :=
                                          match lookupField mapping "sensor_type" with
                                          | some (.str s) =>
                                              if pyStartsWith s "$" then
                                                match get_field_value row (s.drop 1) with
                                                | some w => pyStr w
                                                | none => s
                                              else s
                                          | some v => pyStr v
                                          | none => "camera"
                                        some
                                          { frame_id := none
                                            frame_path := frame_path
                                            timestamp := timestamp
                                            gps_lat := optNum "gps_lat"
                                            gps_lon := optNum "gps_lon"
                                            weather := optStr "weather"
                                            camera_angle := camera_angle
                                            sensor_type := sensor_type
                                            original_path := optStr "original_path" }))
                | _ => none)
  | _ => none

/-- The row loop of `CSVLoader._load_csv_file`: each parsed row is mapped
through `_map_row_to_frame_metadata`; `None` rows are skipped, mapped
rows whose resolved file does not exist are skipped, everything else is
kept in order.  File decoding and existence checks are external
(`file_exists`). -/
def load_csv_rows {δ : Type} (P : TimeParsers δ) (st : ConfigLoaderState δ)
    (file_exists : String → Bool) (rows : List (PyVal δ)) : List (FrameMetadata δ) :=
  rows.filterMap (fun row =>
    match map_row_to_frame_metadata P st row with
    | none => none
    | some m => if file_exists m.frame_path then some m else none)

/-! ### Video frame extraction — `src/backend/video_utils.py`

`extract_frames` is modelled with OpenCV as the external collaborator:
the video's properties (`CAP_PROP_FPS`, `CAP_PROP_FRAME_COUNT`) are
inputs, `cap.read()` at position `n` succeeds exactly when `n` is below
the frame count, and the decoded images are dropped from the yielded
tuples (only timestamp and virtual path matter to the claims). -/

/-- The virtual path `f"{video_path}#t={timestamp:.2f}"` of one extracted
frame. -/
def mkVirtualPath (video_path : String) (timestamp : ℚ) : String :=
  video_path ++ "#t=" ++ fmtTwoDec timestamp

/-- The computed stride in frames:
`interval = max(1.0 / fps, min_interval)`;
`frame_interval = int(video_fps * interval)`; clamped to at least 1. -/
def frame_interval (video_fps fps min_interval : ℚ) : Nat :=
  let interval := max (1 / fps) min_interval
  let fi := pyInt (video_fps * interval)
  if fi < 1 then 1 else fi.toNat

/-- `timestamp = frame_number / video_fps if video_fps > 0 else 0`. -/
def pyTimestamp (video_fps : ℚ) (frame_number : Nat) : ℚ :=
  if 0 < video_fps then (frame_number : ℚ) / video_fps else 0

/-- The extraction loop: while fewer than `max_frames` frames were
yielded, read the frame at `frame_number` (succeeds iff below
`total_frames`), yield `(timestamp, virtual_path)`, advance by `step`,
and stop when the next position reaches `total_frames`.  The remaining
yield budget is the structural fuel. -/
def extractFramesAux (video_path : String) (video_fps : ℚ) (total_frames step : Nat) :
    Nat → Nat → List (ℚ × String)
  | 0, _ => []
  | budget + 1, frame_number =>
      if frame_number < total_frames then
        if total_frames ≤ frame_number + step then
          [(pyTimestamp video_fps frame_number,
            mkVirtualPath video_path (pyTimestamp video_fps frame_number))]
        else (pyTimestamp video_fps frame_number,
            mkVirtualPath video_path (pyTimestamp video_fps frame_number)) ::
          extractFramesAux video_path video_fps total_frames step budget (frame_number + step)
      else []

/-- `extract_frames(video_path, fps, max_frames, min_interval)` over a
video with the given properties: the `(timestamp, virtual_path)` parts of
the yielded tuples, in order. -/
def extract_frames (video_path : String) (video_fps : ℚ) (total_frames : Nat)
    (fps : ℚ) (max_frames : Nat) (min_interval : ℚ) : List (ℚ × String) :=
  extractFramesAux video_path video_fps total_frames
    (frame_interval video_fps fps min_interval) max_frames 0

/-! ### Loader registry — `src/backend/ingestion/registry.py` -/

/-- What `detect_format` observes about one candidate
`prism_config.{yaml,yml,json}` file. -/
inductive ConfigFileState where
  /-- The file does not exist. -/
  | absent
  /-- The file exists but opening/parsing raised (`except: pass`,
  then `return "config"`). -/
  | unreadable
  /-- The file exists and parsed; the payload is `config.get("format",
  "")` before `.lower()`. -/
  | parsed (format : String)
deriving Repr, DecidableEq

/-- The filesystem observations `LoaderRegistry.detect_format` makes
about a dataset directory. -/
structure DirState where
  /-- `path.exists()`. -/
  path_exists : Bool
  /-- `(path / "data" / "sets" / "nuscenes").exists()`. -/
  nuscenes_dir : Bool
  /-- `v1.0-mini` or `v1.0` exists under the nuScenes dir. -/
  nuscenes_version : Bool
  /-- `prism_config.yaml`, `prism_config.yml`, `prism_config.json`. -/
  config_yaml : ConfigFileState
  config_yml : ConfigFileState
  config_json : ConfigFileState
  /-- `len(path.rglob("*.csv"))`. -/
  csv_count : Nat
  /-- `len(path.rglob("*.json"))`. -/
  json_count : Nat
deriving Repr, DecidableEq

/-- The first of the three candidate config files that exists (the loop
returns from inside its body, so later candidates are never consulted). -/
def firstConfigFile (d : DirState) : ConfigFileState :=
  match d.config_yaml with
  | .absent =>
      match d.config_yml with
      | .absent => d.config_json
      | st => st
  | st => st

/-- `LoaderRegistry.detect_format`: nuScenes fixed layout, then a
declarative config file (`config:<format>` when its lowered `format`
field is `csv` or `json`, bare `config` otherwise), then the `*.csv`
glob, then a group of more than one `*.json` file outside a nuScenes
tree, else undetected. -/
def detect_format (d : DirState) : Option String :=
  if ¬ d.path_exists then none
  else if d.nuscenes_dir && d.nuscenes_version then some "nuscenes"
  else
    match firstConfigFile d with
    | .unreadable => some "config"
    | .parsed fmt =>
        if pyLower fmt == "csv" || pyLower fmt == "json" then
          some ("config:" ++ pyLower fmt)
        else some "config"
    | .absent =>
        if 0 < d.csv_count then some "csv"
        else if 0 < d.json_count then
          (if 1 < d.json_count && ¬ d.nuscenes_dir then some "json" else none)
        else none

/-- `LoaderRegistry.create_loader`, with Python exceptions kept explicit:
a registered loader is an initializer `String → Except PyError L` (the
dataset path to either a loader or a raised exception).  The result type
`Except String (Option L)` separates "an exception escapes
`create_loader`" (`.error`, which the theorem shows never happens) from
the returned value.  An unregistered name gives `None`; an initializer
exception is caught (`except Exception`), logged, and gives `None`. -/
def create_loader {L : Type} (registered : List (String × (String → Except String L)))
    (name : String) (dataset_path : String) : Except String (Option L) :=
  match (registered.find? (fun p => p.1 == name)).map (fun p => p.2) with
  | none => .ok none
  | some loaderInit =>
      match loaderInit dataset_path with
      | .ok loader => .ok (some loader)
      | .error _ => .ok none

/-! ### Concrete scenarios used by the claim theorems -/

/-- A store holding exactly one embedding row, of width 2.  Used against
a query of width 3. -/
def dbOnlyD2 : DB :=
  ⟨[⟨1, "a.jpg", none, "local", 10, 10⟩],
   [⟨1, 1, "full_image", none, none, [0, 1]⟩], 2, 2⟩

/-- A previously built cache of width 2 (built while a width-2 model was
active, kept across a model change because nothing invalidated it). -/
def staleCacheD2 : VectorCache := ⟨[1], [[0, 1]]⟩

/-- One frame owning three embedding rows: the full image plus two
object crops, with pairwise different scores against the query `[1]`. -/
def dbOneFrameThreeEmb : DB :=
  ⟨[⟨1, "f.jpg", none, "local", 10, 10⟩],
   [⟨1, 1, "full_image", none, none, [2]⟩,
    ⟨2, 1, "object_crop", some "car", some [0, 0, 5, 5], [3]⟩,
    ⟨3, 1, "object_crop", some "person", some [1, 1, 6, 6], [1]⟩], 2, 4⟩

/-- The single result the search over `dbOneFrameThreeEmb` returns: the
highest-scoring of the frame's three rows (the car crop, score 3). -/
def carCropResult : SearchResult :=
  { path := "f.jpg", confidence := 3, reasoning := "Strong match on detected car"
    width := 10, height := 10, bbox := some [0, 0, 5, 5], match_type := "object_crop"
    object_class := some "car", detected_objects := ["car", "person"], source_type := "local" }

/-- Two frames, one zero-width embedding row each: every row scores 0
against the empty query, so the ranking is decided purely by the tie
rule.  Row id 1 (`a.jpg`) was inserted before row id 2 (`b.jpg`). -/
def dbTieTwoFrames : DB :=
  ⟨[⟨1, "a.jpg", none, "local", 10, 10⟩, ⟨2, "b.jpg", none, "local", 10, 10⟩],
   [⟨1, 1, "full_image", none, none, []⟩, ⟨2, 2, "full_image", none, none, []⟩], 3, 3⟩

/-- What the search over `dbTieTwoFrames` returns: the later-inserted
row first. -/
def tieExpected : List SearchResult :=
  [{ path := "b.jpg", confidence := 0, reasoning := "Potential match", width := 10
     height := 10, bbox := none, match_type := "full_image", object_class := none
     detected_objects := [], source_type := "local" },
   { path := "a.jpg", confidence := 0, reasoning := "Potential match", width := 10
     height := 10, bbox := none, match_type := "full_image", object_class := none
     detected_objects := [], source_type := "local" }]

/-- Concrete stand-ins for the `datetime` primitives: datetimes are
epoch rationals, `strptime` recognizes one fixed string under the
default format, ISO parsing always fails. -/
def exampleParsers : TimeParsers ℚ :=
  ⟨fun q => q,
   fun s f => if s == "2024-01-01 00:00:00" && f == "%Y-%m-%d %H:%M:%S" then some 17 else none,
   fun _ => none⟩

/-- A minimal valid declarative config: `format` plus the three required
mapping entries. -/
def exampleLoaderConfig : List (String × PyVal ℚ) :=
  [("format", .str "csv"),
   ("mapping", .dict
     [("frame_path", .str "file"), ("timestamp", .str "ts"), ("camera_angle", .str "angle")])]

/-- The loader state built from `exampleLoaderConfig` over `/data`. -/
def exampleLoaderState : ConfigLoaderState ℚ := ⟨exampleLoaderConfig, "/data"⟩

/-- A row every field of which maps cleanly (epoch timestamp 5s). -/
def goodRow : PyVal ℚ :=
  .dict [("file", .str "img1.jpg"), ("ts", .num 5), ("angle", .str "FRONT")]

/-- A row whose timestamp value matches no parse attempt. -/
def badTsRow : PyVal ℚ :=
  .dict [("file", .str "img2.jpg"), ("ts", .str "not-a-date"), ("angle", .str "FRONT")]

/-- The metadata `goodRow` maps to. -/
def goodRowMeta : FrameMetadata ℚ :=
  ⟨none, "/data/img1.jpg", 5, none, none, none, "FRONT", "camera", none⟩

/-- A config whose mapping lacks the required `camera_angle` entry. -/
def configMissingAngle : List (String × PyVal ℚ) :=
  [("format", .str "csv"),
   ("mapping", .dict [("frame_path", .str "f"), ("timestamp", .str "t")])]

/-- A directory containing only `prism_config.yaml` with `format: csv`. -/
def dirOnlyConfigCsv : DirState :=
  ⟨true, false, false, .parsed "csv", .absent, .absent, 0, 0⟩

/-- A directory with no recognizable structure and no CSV/JSON files. -/
def dirUnrecognized : DirState :=
  ⟨true, false, false, .absent, .absent, .absent, 0, 0⟩

/-- A registry entry whose loader initializer raises a fatal
configuration error (`configMissingAngle` fails validation). -/
def registryWithFailingLoader : List (String × (String → Except String (ConfigLoaderState ℚ))) :=
  [("config:csv", fun p => configLoaderInit true configMissingAngle p none)]

/-! ## Theorems -/

/-- C1: the claim fails on the code, which contradicts its own comment
("Handle REPLACE case - get the ID and clear old embeddings").  `INSERT
OR REPLACE` hands back the fresh row's nonzero id in `lastrowid`, so the
clearing branch guarded by `frame_id is None or frame_id == 0` is dead:
re-indexing `a.jpg` leaves the prior embedding row (id 1) in place,
pointing at the deleted frame row id 1, while the only surviving frame
row has id 2 — a stale, orphaned embedding row for that frame. -/
theorem reindex_orphans_prior_embeddings :
    dbAfterResave.frames.map (fun f => f.id) = [2] ∧
    dbAfterResave.embeddings.map (fun e => (e.id, e.frame_id)) = [(1, 1), (2, 2)] ∧
    dbAfterResave.orphanedEmbeddings.map (fun e => e.id) = [1] ∧
    ∃ e ∈ dbAfterResave.embeddings, ∀ f ∈ dbAfterResave.frames, f.id ≠ e.frame_id := by
  decide

/-- C2 counterexample: the active model has width 3 (`expected_dim = 3`),
the store holds only one width-2 vector, and no cache is set; the claim
predicts a `DimensionMismatch` error, but `search` filters the
mismatched row out while building the cache, finds `valid_vectors`
empty, and returns the empty result list (leaving no cache behind). -/
theorem query_width3_store_width2_returns_empty :
    (∀ r ∈ get_column_vectors dbOnlyD2, r.2.length = 2) ∧
    ([(1 : ℚ), 0, 0].length = 3) ∧
    search none dbOnlyD2 [1, 0, 0] 100 0 = (.ok [], none) :=
  ⟨by decide, rfl, rfl⟩

/-- C2 (amended): with no prebuilt cache, a store containing only
vectors of width D2 ≠ D1 makes `search` return the empty result list
(the mismatched rows are dropped during the cache build); the
`DimensionMismatch` error is raised exactly when an already-built,
nonempty cache of width D2 meets a width-D1 query. -/
theorem dimension_mismatch_needs_prebuilt_cache
    (db : DB) (q : List ℚ) (limit : Nat) (minC : ℚ) (D2 : Nat)
    (hD : D2 ≠ q.length)
    (hall : ∀ r ∈ get_column_vectors db, r.2.length = D2) :
    (search none db q limit minC).1 = .ok [] ∧
    (∀ cache : VectorCache, cache.emb_matrix ≠ [] → matrixWidth cache.emb_matrix = D2 →
      (search (some cache) db q limit minC).1 = .error ⟨q.length, D2⟩) := by
  constructor
  · show (search none db q limit minC).1 = .ok []
    unfold search
    rcases hrows : (get_column_vectors db).isEmpty with _ | _
    · have hval : (get_column_vectors db).filter (fun r => r.2.length == q.length) = [] := by
        apply List.filter_eq_nil_iff.mpr
        intro r hr
        simp only [beq_iff_eq]
        rw [hall r hr]
        exact hD
      simp [hrows, hval]
    · simp [hrows]
  · intro cache hne hw
    show (searchWithCache cache db q limit minC) = _
    unfold searchWithCache
    have hlen : ¬ cache.emb_matrix.length = 0 := by
      simpa [List.length_eq_zero] using hne
    have hww : ¬ (matrixWidth cache.emb_matrix = q.length) := by
      rw [hw]; exact hD
    simp [hlen, hww, hw]
    exact hD

/-- C2 witness: the amended theorem at the concrete scenario — fresh
search over the width-2 store returns `[]`; with the stale width-2 cache
still set, the same query raises `DimensionMismatch(expected=3,
actual=2)`. -/
theorem dimension_mismatch_needs_prebuilt_cache_witness :
    (search none dbOnlyD2 [1, 0, 0] 100 0).1 = .ok [] ∧
    (search (some staleCacheD2) dbOnlyD2 [1, 0, 0] 100 0).1 = .error ⟨3, 2⟩ := by
  have h := dimension_mismatch_needs_prebuilt_cache dbOnlyD2 [1, 0, 0] 100 0 2
    (by decide) (by decide)
  exact ⟨h.1, h.2 staleCacheD2 (by decide) (by decide)⟩

/-- C6: a config missing `format`, missing `mapping`, or whose mapping
dict lacks one of the three required entries makes the `ConfigLoader`
constructor fail with an error (no loader state is produced, so nothing
is deferred to row processing); conversely a constructed loader's config
passed validation. -/
theorem config_validation_fatal_at_construction {δ : Type}
    (config : List (String × PyVal δ)) (config_dir : String) (dataset_path : Option String)
    (h : lookupField config "format" = none ∨ lookupField config "mapping" = none ∨
      ∃ m, lookupField config "mapping" = some (.dict m) ∧
        ∃ f ∈ requiredMappingFields, lookupField m f = none) :
    (∃ e, configLoaderInit true config config_dir dataset_path = .error e) ∧
    (∀ (ex : Bool) (st : ConfigLoaderState δ),
      configLoaderInit ex config config_dir dataset_path = .ok st →
      validate_config config = .ok ()) := by
  constructor
  · have hval : ∃ e, validate_config config = .error e := by
      rcases hv : validate_config config with e | u
      · exact ⟨e, rfl⟩
      · exfalso
        unfold validate_config at hv
        rcases h with hf | hm | ⟨m, hm, f, hfmem, hflook⟩
        · simp [hasKey, hf] at hv
        · by_cases hfmt : hasKey config "format"
          · simp [hasKey, hm] at hv
            split_ifs at hv
          · simp [hfmt] at hv
        · have hmiss : (requiredMappingFields.find? (fun f => ! hasKey m f)).isSome := by
            rw [List.find?_isSome]
            exact ⟨f, hfmem, by simp [hasKey, hflook]⟩
          by_cases hfmt : hasKey config "format"
          · by_cases hmk : hasKey config "mapping"
            · rcases hfind : requiredMappingFields.find? (fun f => ! hasKey m f) with _ | f0
              · rw [hfind] at hmiss; simp at hmiss
              · simp [hfmt, hmk, hm, hfind] at hv
            · simp [hfmt, hmk] at hv
          · simp [hfmt] at hv
    rcases hval with ⟨e, he⟩
    refine ⟨e, ?_⟩
    unfold configLoaderInit
    simp [he]
  · intro ex st hok
    unfold configLoaderInit at hok
    by_cases hex : ex
    · rcases hv : validate_config config with _ | u
      · simp [hex, hv] at hok
      · rcases u; rfl
    · simp [hex] at hok

/-- C6 witness: the theorem at a concrete config whose mapping lacks
`camera_angle` — construction fails. -/
theorem config_validation_fatal_at_construction_witness :
    ∃ e, configLoaderInit true configMissingAngle "/cfg" none = .error e :=
  (config_validation_fatal_at_construction configMissingAngle "/cfg" none
    (Or.inr (Or.inr ⟨[("frame_path", .str "f"), ("timestamp", .str "t")], rfl,
      "camera_angle", by decide, rfl⟩))).1

/-- C8: the detection fallback policy, each case taken with every
earlier case excluded — a readable config file naming `csv`/`json`
yields `config:<format>`; otherwise CSV files present yield `csv`;
otherwise a group of more than one JSON file outside a nuScenes tree
yields `json`; and a directory with nothing recognizable and no CSV/JSON
files is undetected (`none`). -/
theorem detect_format_fallback_policy (d : DirState)
    (hx : d.path_exists = true)
    (hnus : (d.nuscenes_dir && d.nuscenes_version) = false) :
    (∀ fmt, firstConfigFile d = .parsed fmt →
      (pyLower fmt == "csv" || pyLower fmt == "json") = true →
      detect_format d = some ("config:" ++ pyLower fmt)) ∧
    (firstConfigFile d = .absent → 0 < d.csv_count → detect_format d = some "csv") ∧
    (firstConfigFile d = .absent → d.csv_count = 0 → 1 < d.json_count →
      d.nuscenes_dir = false → detect_format d = some "json") ∧
    (firstConfigFile d = .absent → d.csv_count = 0 → d.json_count = 0 →
      detect_format d = none) := by
  refine ⟨?_, ?_, ?_, ?_⟩
  · intro fmt hcfg hfmt
    unfold detect_format
    simp [hx, hnus, hcfg, hfmt]
  · intro hcfg hcsv
    unfold detect_format
    simp [hx, hnus, hcfg, hcsv, Nat.pos_iff_ne_zero]
  · intro hcfg hcsv hjson hnd
    unfold detect_format
    have h0 : 0 < d.json_count := Nat.lt_trans Nat.zero_lt_one hjson
    simp [hx, hnus, hcfg, hcsv, h0, hjson, hnd]
  · intro hcfg hcsv hjson
    unfold detect_format
    simp [hx, hnus, hcfg, hcsv, hjson]

/-- C8 witness: the theorem at the two spec scenarios — a directory with
only `prism_config.yaml` containing `format: csv` detects as
`config:csv`, and a directory with no recognizable structure and no
CSV/JSON files detects as undetected. -/
theorem detect_format_fallback_policy_witness :
    detect_format dirOnlyConfigCsv = some "config:csv" ∧
    detect_format dirUnrecognized = none := by
  constructor
  · exact (detect_format_fallback_policy dirOnlyConfigCsv rfl rfl).1 "csv" rfl (by decide)
  · exact (detect_format_fallback_policy dirUnrecognized rfl rfl).2.2.2 rfl rfl rfl

/-- C10: `create_loader` never lets an exception escape — for every
registry, name and dataset path it returns a value (`.ok`); an
unregistered name returns `None`, and a loader initializer that raises
(such as a `ConfigLoader` whose config fails validation, cf. C6's
constructor model) is caught and also surfaces only as `None`. -/
theorem create_loader_swallows_exceptions {L : Type}
    (registered : List (String × (String → Except String L)))
    (name dataset_path : String) :
    (∃ r, create_loader registered name dataset_path = .ok r) ∧
    ((registered.find? (fun p => p.1 == name)) = none →
      create_loader registered name dataset_path = .ok none) ∧
    (∀ loaderInit e,
      (registered.find? (fun p => p.1 == name)).map (fun p => p.2) = some loaderInit →
      loaderInit dataset_path = .error e →
      create_loader registered name dataset_path = .ok none) := by
  refine ⟨?_, ?_, ?_⟩
  · rcases hf : (registered.find? (fun p => p.1 == name)).map (fun p => p.2) with _ | init
    · exact ⟨none, by simp [create_loader, hf]⟩
    · rcases hi : init dataset_path with e | l
      · exact ⟨none, by simp [create_loader, hf, hi]⟩
      · exact ⟨some l, by simp [create_loader, hf, hi]⟩
  · intro hf
    simp [create_loader, hf]
  · intro loaderInit e hf he
    simp [create_loader, hf, he]

/-- The extraction loop never yields more than its remaining budget. -/
theorem extractFramesAux_length_le (vp : String) (vfps : ℚ) (tf step : Nat) :
    ∀ budget fn, (extractFramesAux vp vfps tf step budget fn).length ≤ budget := by
  intro budget
  induction budget with
  | zero => intro fn; simp [extractFramesAux]
  | succ b ih =>
      intro fn
      unfold extractFramesAux
      split
      · split
        · simp
        · simpa using Nat.succ_le_succ (ih (fn + step))
      · simp

/-- Every yielded tuple's virtual path is the formatted
`"<video_path>#t=<seconds>"` of its own timestamp. -/
theorem extractFramesAux_paths (vp : String) (vfps : ℚ) (tf step : Nat) :
    ∀ budget fn x, x ∈ extractFramesAux vp vfps tf step budget fn →
      x.2 = mkVirtualPath vp x.1 := by
  intro budget
  induction budget with
  | zero => intro fn x hx; simp [extractFramesAux] at hx
  | succ b ih =>
      intro fn x hx
      unfold extractFramesAux at hx
      split at hx
      · split at hx
        · rcases List.mem_singleton.mp hx with rfl
          rfl
        · rcases List.mem_cons.mp hx with rfl | hx2
          · rfl
          · exact ih (fn + step) x hx2
      · simp at hx

/-- C7: the stride is `max(videoFps × (1/targetFps), videoFps ×
minInterval)` truncated to an integer and clamped to at least 1 frame
(the second operand being the minimum inter-frame interval expressed in
frames); no more than `max_frames` tuples are ever yielded; every tuple
carries the virtual path `"<videoPath>#t=<seconds>"` built from its
timestamp; and the spec scenario — target fps 1.0, max_frames 300, a
10-second video at 30 fps (300 frames) — yields exactly 10 frames. -/
theorem extract_frames_stride_caps_and_paths :
    (∀ video_fps fps min_interval : ℚ, 0 ≤ video_fps →
      frame_interval video_fps fps min_interval =
        max 1 (pyInt (max (video_fps * (1 / fps)) (video_fps * min_interval))).toNat) ∧
    (∀ (vp : String) (vfps : ℚ) (tf : Nat) (fps : ℚ) (mf : Nat) (mi : ℚ),
      (extract_frames vp vfps tf fps mf mi).length ≤ mf) ∧
    (∀ (vp : String) (vfps : ℚ) (tf : Nat) (fps : ℚ) (mf : Nat) (mi : ℚ),
      (extract_frames vp vfps tf fps mf mi).all
        (fun x => x.2 == mkVirtualPath vp x.1) = true) ∧
    (extract_frames "/data/clip.mp4" 30 300 1 300 (1 / 2)).length = 10 := by
  refine ⟨?_, ?_, ?_, ?_⟩
  · intro vfps fps mi h
    have hdist : vfps * max (1 / fps) mi = max (vfps * (1 / fps)) (vfps * mi) :=
      mul_max_of_nonneg _ _ h
    have hdef : frame_interval vfps fps mi =
        (if pyInt (vfps * max (1 / fps) mi) < 1 then 1
         else (pyInt (vfps * max (1 / fps) mi)).toNat) := rfl
    rw [hdef, hdist]
    split_ifs with h1 <;> omega
  · intro vp vfps tf fps mf mi
    exact extractFramesAux_length_le vp vfps tf _ mf 0
  · intro vp vfps tf fps mf mi
    rw [List.all_eq_true]
    intro x hx
    exact beq_iff_eq.mpr (extractFramesAux_paths vp vfps tf _ mf 0 x hx)
  · have h30 : ((30 : ℚ) * max (1 / (1 : ℚ)) (1 / 2 : ℚ)) = 30 := by norm_num
    have hstep : frame_interval 30 1 (1 / 2 : ℚ) = 30 := by
      have hdef : frame_interval 30 1 (1 / 2 : ℚ) =
          (if pyInt ((30 : ℚ) * max (1 / (1 : ℚ)) (1 / 2 : ℚ)) < 1 then 1
           else (pyInt ((30 : ℚ) * max (1 / (1 : ℚ)) (1 / 2 : ℚ))).toNat) := rfl
      rw [hdef, h30]
      decide
    have hdef2 : extract_frames "/data/clip.mp4" 30 300 1 300 (1 / 2) =
        extractFramesAux "/data/clip.mp4" 30 300 (frame_interval 30 1 (1 / 2)) 300 0 := rfl
    rw [hdef2, hstep]
    decide

/-- C7 witness: the stride equation applied at the spec scenario's
parameters (a 30 fps video, target 1.0 fps, 0.5 s floor). -/
theorem extract_frames_stride_caps_and_paths_witness :
    frame_interval 30 1 (1 / 2 : ℚ) =
      max 1 (pyInt (max ((30 : ℚ) * (1 / 1)) ((30 : ℚ) * (1 / 2)))).toNat :=
  extract_frames_stride_caps_and_paths.1 30 1 (1 / 2) (by decide)

/-- C10 witness: the theorem at the concrete registry whose only loader
initializer raises a fatal config-validation error — the error is
swallowed and the caller sees `None`; an unregistered name also gives
`None`. -/
theorem create_loader_swallows_exceptions_witness :
    create_loader registryWithFailingLoader "config:csv" "/data" = .ok none ∧
    create_loader registryWithFailingLoader "nuscenes" "/data" = .ok none := by
  constructor
  · exact (create_loader_swallows_exceptions registryWithFailingLoader "config:csv"
      "/data").2.2 (fun p => configLoaderInit true configMissingAngle p none)
      "Config mapping must include 'camera_angle' field" rfl rfl
  · exact (create_loader_swallows_exceptions registryWithFailingLoader "nuscenes"
      "/data").2.1 rfl

/-- Unfolding lemma: the dedup walk on an empty ranked list. -/
theorem dedupLoop_nil (db : DB) (seen : List String) : dedupLoop db [] seen = [] := rfl

/-- Unfolding lemma: one dedup step, scrutinee unreduced. -/
theorem dedupLoop_cons (db : DB) (pk : Nat) (score : ℚ) (rest : List (Nat × ℚ))
    (seen : List String) :
    dedupLoop db ((pk, score) :: rest) seen =
      match get_metadata_by_id db pk with
      | none => dedupLoop db rest seen
      | some meta =>
          if seen.contains meta.file_path then dedupLoop db rest seen
          else mkSearchResult db meta score :: dedupLoop db rest (meta.file_path :: seen) := rfl

/-- Unfolding lemma: a dedup step whose metadata join is empty. -/
theorem dedupLoop_cons_none (db : DB) (pk : Nat) (score : ℚ) (rest : List (Nat × ℚ))
    (seen : List String) (h : get_metadata_by_id db pk = none) :
    dedupLoop db ((pk, score) :: rest) seen = dedupLoop db rest seen := by
  rw [dedupLoop_cons db pk score rest seen, h]

/-- Unfolding lemma: a dedup step with hydrated metadata. -/
theorem dedupLoop_cons_some (db : DB) (pk : Nat) (score : ℚ) (rest : List (Nat × ℚ))
    (seen : List String) (meta : EmbMeta) (h : get_metadata_by_id db pk = some meta) :
    dedupLoop db ((pk, score) :: rest) seen =
      (if seen.contains meta.file_path then dedupLoop db rest seen
       else mkSearchResult db meta score :: dedupLoop db rest (meta.file_path :: seen)) := by
  rw [dedupLoop_cons db pk score rest seen, h]

/-- No produced result carries a path that was already in `seen_paths`
when the walk started. -/
theorem dedupLoop_not_seen (db : DB) :
    ∀ (entries : List (Nat × ℚ)) (seen : List String),
      ∀ r ∈ dedupLoop db entries seen, seen.contains r.path = false := by
  intro entries
  induction entries with
  | nil => intro seen r hr; simp [dedupLoop_nil] at hr
  | cons e rest ih =>
      intro seen r hr
      rcases e with ⟨pk, score⟩
      rcases hmeta : get_metadata_by_id db pk with _ | meta
      · rw [dedupLoop_cons_none db pk score rest seen hmeta] at hr
        exact ih seen r hr
      · rw [dedupLoop_cons_some db pk score rest seen meta hmeta] at hr
        by_cases hseen : seen.contains meta.file_path
        · rw [if_pos hseen] at hr
          exact ih seen r hr
        · rw [if_neg hseen] at hr
          rcases List.mem_cons.mp hr with rfl | hr2
          · simpa [mkSearchResult] using hseen
          · have h2 := ih (meta.file_path :: seen) r hr2
            simp only [List.contains_cons, Bool.or_eq_false_iff] at h2
            exact h2.2

/-- Every produced result's confidence is the score of some ranked
entry. -/
theorem dedupLoop_conf_mem (db : DB) :
    ∀ (entries : List (Nat × ℚ)) (seen : List String),
      ∀ r ∈ dedupLoop db entries seen, ∃ e ∈ entries, r.confidence = e.2 := by
  intro entries
  induction entries with
  | nil => intro seen r hr; simp [dedupLoop_nil] at hr
  | cons e rest ih =>
      intro seen r hr
      rcases e with ⟨pk, score⟩
      rcases hmeta : get_metadata_by_id db pk with _ | meta
      · rw [dedupLoop_cons_none db pk score rest seen hmeta] at hr
        rcases ih seen r hr with ⟨e2, he2, hc⟩
        exact ⟨e2, List.mem_cons_of_mem _ he2, hc⟩
      · rw [dedupLoop_cons_some db pk score rest seen meta hmeta] at hr
        by_cases hseen : seen.contains meta.file_path
        · rw [if_pos hseen] at hr
          rcases ih seen r hr with ⟨e2, he2, hc⟩
          exact ⟨e2, List.mem_cons_of_mem _ he2, hc⟩
        · rw [if_neg hseen] at hr
          rcases List.mem_cons.mp hr with rfl | hr2
          · exact ⟨(pk, score), List.mem_cons_self _ _, rfl⟩
          · rcases ih _ r hr2 with ⟨e2, he2, hc⟩
            exact ⟨e2, List.mem_cons_of_mem _ he2, hc⟩

/-- The dedup walk never produces more results than ranked entries. -/
theorem dedupLoop_length_le (db : DB) :
    ∀ (entries : List (Nat × ℚ)) (seen : List String),
      (dedupLoop db entries seen).length ≤ entries.length := by
  intro entries
  induction entries with
  | nil => intro seen; simp [dedupLoop_nil]
  | cons e rest ih =>
      intro seen
      rcases e with ⟨pk, score⟩
      rcases hmeta : get_metadata_by_id db pk with _ | meta
      · rw [dedupLoop_cons_none db pk score rest seen hmeta]
        exact Nat.le_succ_of_le (ih seen)
      · rw [dedupLoop_cons_some db pk score rest seen meta hmeta]
        by_cases hseen : seen.contains meta.file_path
        · rw [if_pos hseen]
          exact Nat.le_succ_of_le (ih seen)
        · rw [if_neg hseen]
          simpa using Nat.succ_le_succ (ih (meta.file_path :: seen))

/-- The produced result paths are pairwise distinct: at most one entry
per frame path survives. -/
theorem dedupLoop_paths_nodup (db : DB) :
    ∀ (entries : List (Nat × ℚ)) (seen : List String),
      ((dedupLoop db entries seen).map (fun r => r.path)).Nodup := by
  intro entries
  induction entries with
  | nil => intro seen; simp [dedupLoop_nil]
  | cons e rest ih =>
      intro seen
      rcases e with ⟨pk, score⟩
      rcases hmeta : get_metadata_by_id db pk with _ | meta
      · rw [dedupLoop_cons_none db pk score rest seen hmeta]
        exact ih seen
      · rw [dedupLoop_cons_some db pk score rest seen meta hmeta]
        by_cases hseen : seen.contains meta.file_path
        · rw [if_pos hseen]
          exact ih seen
        · rw [if_neg hseen]
          rw [List.map_cons, List.nodup_cons]
          refine ⟨?_, ih (meta.file_path :: seen)⟩
          intro hmem
          rcases List.mem_map.mp hmem with ⟨r, hr, hpath⟩
          have hns := dedupLoop_not_seen db rest (meta.file_path :: seen) r hr
          simp only [List.contains_cons, Bool.or_eq_false_iff] at hns
          have hne : r.path ≠ meta.file_path := by
            intro hcontra
            rw [hcontra] at hns
            simpa using hns.1
          exact hne hpath

/-- Each produced result comes from the first ranked entry whose
hydrated frame path is the result's path, and carries that entry's
score. -/
theorem dedupLoop_first_entry (db : DB) :
    ∀ (entries : List (Nat × ℚ)) (seen : List String),
      ∀ r ∈ dedupLoop db entries seen,
        ∃ e, entries.find? (fun p => metaPath db p.1 == some r.path) = some e ∧
          e.2 = r.confidence := by
  intro entries
  induction entries with
  | nil => intro seen r hr; simp [dedupLoop_nil] at hr
  | cons e rest ih =>
      intro seen r hr
      rcases e with ⟨pk, score⟩
      rcases hmeta : get_metadata_by_id db pk with _ | meta
      · rw [dedupLoop_cons_none db pk score rest seen hmeta] at hr
        rcases ih seen r hr with ⟨e2, hfind, hconf⟩
        refine ⟨e2, ?_, hconf⟩
        rw [List.find?_cons_of_neg, hfind]
        simp [metaPath, hmeta]
      · rw [dedupLoop_cons_some db pk score rest seen meta hmeta] at hr
        by_cases hseen : seen.contains meta.file_path
        · rw [if_pos hseen] at hr
          rcases ih seen r hr with ⟨e2, hfind, hconf⟩
          refine ⟨e2, ?_, hconf⟩
          rw [List.find?_cons_of_neg, hfind]
          have hns := dedupLoop_not_seen db rest seen r hr
          have hne : meta.file_path ≠ r.path := by
            intro hcontra
            rw [hcontra, hns] at hseen
            exact Bool.noConfusion hseen
          simp [metaPath, hmeta, hne]
        · rw [if_neg hseen] at hr
          rcases List.mem_cons.mp hr with rfl | hr2
          · refine ⟨(pk, score), ?_, rfl⟩
            rw [List.find?_cons_of_pos]
            simp [metaPath, hmeta, mkSearchResult]
          · rcases ih (meta.file_path :: seen) r hr2 with ⟨e2, hfind, hconf⟩
            refine ⟨e2, ?_, hconf⟩
            rw [List.find?_cons_of_neg, hfind]
            have hns := dedupLoop_not_seen db rest (meta.file_path :: seen) r hr2
            simp only [List.contains_cons, Bool.or_eq_false_iff] at hns
            have hne : meta.file_path ≠ r.path := by
              intro hcontra
              have h1 := hns.1
              rw [hcontra] at h1
              simp at h1
            simp [metaPath, hmeta, hne]

/-- When the ranked entries are sorted by non-increasing score, each
produced result's confidence dominates the score of every ranked entry
hydrating to the same path. -/
theorem dedupLoop_best (db : DB) :
    ∀ (entries : List (Nat × ℚ)) (seen : List String),
      List.Pairwise (fun a b : Nat × ℚ => b.2 ≤ a.2) entries →
      ∀ r ∈ dedupLoop db entries seen,
        ∀ e ∈ entries, metaPath db e.1 = some r.path → e.2 ≤ r.confidence := by
  intro entries
  induction entries with
  | nil => intro seen _ r hr; simp [dedupLoop_nil] at hr
  | cons e0 rest ih =>
      intro seen hsort r hr
      rcases e0 with ⟨pk, score⟩
      rcases List.pairwise_cons.mp hsort with ⟨hhead, htail⟩
      rcases hmeta : get_metadata_by_id db pk with _ | meta
      · rw [dedupLoop_cons_none db pk score rest seen hmeta] at hr
        intro e he hpath
        rcases List.mem_cons.mp he with rfl | he2
        · rw [metaPath, hmeta] at hpath
          exact Option.noConfusion hpath
        · exact ih seen htail r hr e he2 hpath
      · rw [dedupLoop_cons_some db pk score rest seen meta hmeta] at hr
        by_cases hseen : seen.contains meta.file_path
        · rw [if_pos hseen] at hr
          intro e he hpath
          rcases List.mem_cons.mp he with rfl | he2
          · rw [metaPath, hmeta] at hpath
            have hpe : meta.file_path = r.path := by
              simpa using hpath
            have hns := dedupLoop_not_seen db rest seen r hr
            rw [hpe, hns] at hseen
            exact Bool.noConfusion hseen
          · exact ih seen htail r hr e he2 hpath
        · rw [if_neg hseen] at hr
          rcases List.mem_cons.mp hr with rfl | hr2
          · intro e he hpath
            rcases List.mem_cons.mp he with rfl | he2
            · exact le_refl _
            · exact hhead e he2
          · intro e he hpath
            rcases List.mem_cons.mp he with rfl | he2
            · rw [metaPath, hmeta] at hpath
              have hpe : meta.file_path = r.path := by simpa using hpath
              have hns := dedupLoop_not_seen db rest (meta.file_path :: seen) r hr2
              simp only [List.contains_cons, Bool.or_eq_false_iff] at hns
              rw [hpe] at hns
              exact absurd hns.1 (by simp)
            · exact ih (meta.file_path :: seen) htail r hr2 e he2 hpath

/-- When the ranked entries are sorted by non-increasing score, so are
the produced results' confidences. -/
theorem dedupLoop_pairwise_conf (db : DB) :
    ∀ (entries : List (Nat × ℚ)) (seen : List String),
      List.Pairwise (fun a b : Nat × ℚ => b.2 ≤ a.2) entries →
      List.Pairwise (fun a b : SearchResult => b.confidence ≤ a.confidence)
        (dedupLoop db entries seen) := by
  intro entries
  induction entries with
  | nil => intro seen _; simp [dedupLoop_nil]
  | cons e0 rest ih =>
      intro seen hsort
      rcases e0 with ⟨pk, score⟩
      rcases List.pairwise_cons.mp hsort with ⟨hhead, htail⟩
      rcases hmeta : get_metadata_by_id db pk with _ | meta
      · rw [dedupLoop_cons_none db pk score rest seen hmeta]
        exact ih seen htail
      · rw [dedupLoop_cons_some db pk score rest seen meta hmeta]
        by_cases hseen : seen.contains meta.file_path
        · rw [if_pos hseen]
          exact ih seen htail
        · rw [if_neg hseen]
          refine List.pairwise_cons.mpr ⟨?_, ih (meta.file_path :: seen) htail⟩
          intro r hr
          rcases dedupLoop_conf_mem db rest (meta.file_path :: seen) r hr with ⟨e2, he2, hc⟩
          rw [hc]
          exact hhead e2 he2

/-- The ranked top list is capped at `limit` and sorted: descending
score, with score ties broken by strictly descending cache position (the
reverse of the ascending, position-stable argsort) — the later-inserted
row first. -/
theorem topIdxScores_sorted_strict (matrix : List (List ℚ)) (q : List ℚ) (limit : Nat)
    (minC : ℚ) :
    (topIdxScores matrix q limit minC).length ≤ limit ∧
    List.Pairwise (fun a b : Nat × ℚ => b.2 < a.2 ∨ (b.2 = a.2 ∧ b.1 < a.1))
      (topIdxScores matrix q limit minC) := by
  have hdef : topIdxScores matrix q limit minC =
      ((List.insertionSort argsortRel
        (if 0 < minC then
          ((List.range (matrix.map (fun v => dot v q)).length).zip
            (matrix.map (fun v => dot v q))).filter (fun p => decide (minC ≤ p.2))
         else
          (List.range (matrix.map (fun v => dot v q)).length).zip
            (matrix.map (fun v => dot v q)))).reverse).take limit := rfl
  constructor
  · rw [hdef]
    exact List.length_take_le _ _
  · set scores := matrix.map (fun v => dot v q) with hscores
    set indexed := (List.range scores.length).zip scores with hindexed
    set pool := if 0 < minC then indexed.filter (fun p => decide (minC ≤ p.2)) else indexed
      with hpool
    have hsorted : List.Pairwise argsortRel (List.insertionSort argsortRel pool) :=
      List.sorted_insertionSort argsortRel pool
    have hrev : List.Pairwise (fun a b => argsortRel b a)
        (List.insertionSort argsortRel pool).reverse :=
      List.pairwise_reverse.mpr hsorted
    have htake : List.Pairwise (fun a b => argsortRel b a)
        (topIdxScores matrix q limit minC) := by
      rw [hdef]
      exact List.Pairwise.sublist (List.take_sublist _ _) hrev
    have hfstnodup : ((topIdxScores matrix q limit minC).map Prod.fst).Nodup := by
      have hidx : (indexed.map Prod.fst).Nodup := by
        rw [hindexed, List.map_fst_zip _ _ (by simp)]
        exact List.nodup_range _
      have hpoolsub : pool.Sublist indexed := by
        rw [hpool]
        split
        · exact List.filter_sublist _
        · exact List.Sublist.refl _
      have hpoolnodup : (pool.map Prod.fst).Nodup :=
        (hpoolsub.map Prod.fst).nodup hidx
      have hperm : (List.insertionSort argsortRel pool).Perm pool :=
        List.perm_insertionSort argsortRel pool
      have hsortnodup : ((List.insertionSort argsortRel pool).map Prod.fst).Nodup :=
        ((hperm.map Prod.fst).nodup_iff).mpr hpoolnodup
      have hrevnodup :
          (((List.insertionSort argsortRel pool).reverse).map Prod.fst).Nodup := by
        rw [List.map_reverse, List.nodup_reverse]
        exact hsortnodup
      rw [hdef]
      exact ((List.take_sublist _ _).map Prod.fst).nodup hrevnodup
    have hfstne : List.Pairwise (fun a b : Nat × ℚ => a.1 ≠ b.1)
        (topIdxScores matrix q limit minC) :=
      List.pairwise_map.mp hfstnodup
    have hand := htake.and hfstne
    refine hand.imp ?_
    intro a b hab
    rcases hab with ⟨hrel, hne⟩
    rcases hrel with hlt | ⟨heq, hle⟩
    · exact Or.inl hlt
    · exact Or.inr ⟨heq, lt_of_le_of_ne hle (Ne.symm hne)⟩

/-- The ranked `(embedding id, score)` entries are sorted by
non-increasing score. -/
theorem rankedEntries_pairwise_scores (cache : VectorCache) (q : List ℚ) (limit : Nat)
    (minC : ℚ) :
    List.Pairwise (fun a b : Nat × ℚ => b.2 ≤ a.2) (rankedEntries cache q limit minC) := by
  have h := (topIdxScores_sorted_strict cache.emb_matrix q limit minC).2
  rw [rankedEntries, List.pairwise_map]
  refine h.imp ?_
  intro a b hab
  rcases hab with hlt | ⟨heq, _⟩
  · exact le_of_lt hlt
  · exact le_of_eq heq

/-- An `.ok` outcome of the cached search is either the early empty
return or the dedup walk over the ranked entries. -/
theorem searchWithCache_ok_shape (cache : VectorCache) (db : DB) (q : List ℚ)
    (limit : Nat) (minC : ℚ) (rs : List SearchResult)
    (h : searchWithCache cache db q limit minC = .ok rs) :
    rs = [] ∨ rs = dedupLoop db (rankedEntries cache q limit minC) [] := by
  unfold searchWithCache at h
  split_ifs at h
  · exact Or.inl (Except.ok.inj h).symm
  · exact Or.inr (Except.ok.inj h).symm

/-- An `.ok` outcome of the full search is either empty or an `.ok`
outcome of the cached search for some cache. -/
theorem search_ok_shape (cacheState : Option VectorCache) (db : DB) (q : List ℚ)
    (limit : Nat) (minC : ℚ) (rs : List SearchResult)
    (h : (search cacheState db q limit minC).1 = .ok rs) :
    rs = [] ∨ ∃ cache, searchWithCache cache db q limit minC = .ok rs := by
  rcases cacheState with _ | cache
  · unfold search at h
    dsimp only at h
    split_ifs at h
    · exact Or.inl (Except.ok.inj h).symm
    · exact Or.inl (Except.ok.inj h).symm
    · exact Or.inr ⟨_, h⟩
  · exact Or.inr ⟨cache, h⟩

/-- Packaged ordering facts for an `.ok` cached search. -/
theorem searchWithCache_ordered (cache : VectorCache) (db : DB) (q : List ℚ)
    (limit : Nat) (minC : ℚ) (rs : List SearchResult)
    (h : searchWithCache cache db q limit minC = .ok rs) :
    rs.length ≤ limit ∧
    List.Pairwise (fun a b : SearchResult => b.confidence ≤ a.confidence) rs := by
  rcases searchWithCache_ok_shape cache db q limit minC rs h with rfl | rfl
  · simp
  · constructor
    · have h1 := dedupLoop_length_le db (rankedEntries cache q limit minC) []
      have h2 : (rankedEntries cache q limit minC).length =
          (topIdxScores cache.emb_matrix q limit minC).length := by
        rw [rankedEntries]
        exact List.length_map _ _
      have h3 := (topIdxScores_sorted_strict cache.emb_matrix q limit minC).1
      omega
    · exact dedupLoop_pairwise_conf db _ [] (rankedEntries_pairwise_scores cache q limit minC)

/-- C3: at most one result per distinct frame path — the result paths
are pairwise distinct, each result is produced from the *first* ranked
entry hydrating to its path (carrying that entry's score), and that
score dominates every other ranked entry of the same frame; in the
concrete scenario, a frame owning one full-image row plus two qualifying
object-crop rows, all three scoring above the confidence threshold,
yields exactly one entry — the highest-scoring (car-crop) row. -/
theorem search_dedups_by_frame_path :
    (∀ (cache : VectorCache) (db : DB) (q : List ℚ) (limit : Nat) (minC : ℚ)
      (rs : List SearchResult), searchWithCache cache db q limit minC = .ok rs →
      (rs.map (fun r => r.path)).Nodup ∧
      (∀ r ∈ rs, ∃ e, (rankedEntries cache q limit minC).find?
          (fun p => metaPath db p.1 == some r.path) = some e ∧ e.2 = r.confidence) ∧
      (∀ r ∈ rs, ∀ e ∈ rankedEntries cache q limit minC,
        metaPath db e.1 = some r.path → e.2 ≤ r.confidence)) ∧
    (search none dbOneFrameThreeEmb [1] 1000 (mkRat 1 2)).1 = .ok [carCropResult] := by
  constructor
  · intro cache db q limit minC rs h
    rcases searchWithCache_ok_shape cache db q limit minC rs h with rfl | rfl
    · refine ⟨by simp, by simp, by simp⟩
    · refine ⟨dedupLoop_paths_nodup db _ [], ?_, ?_⟩
      · intro r hr
        exact dedupLoop_first_entry db _ [] r hr
      · intro r hr e he hpath
        exact dedupLoop_best db _ [] (rankedEntries_pairwise_scores cache q limit minC)
          r hr e he hpath
  · simp [search, searchWithCache, topIdxScores, dot, get_column_vectors, dbOneFrameThreeEmb,
      rankedEntries]
    norm_num [argsortRel, get_metadata_by_id, dedupLoop, mkSearchResult, generate_reasoning,
      get_objects_for_frame, carCropResult, metaPath, matrixWidth]
    decide

/-- C3 witness: the dedup facts applied at a concrete cached search
whose `.ok` hypothesis evaluates by `rfl`. -/
theorem search_dedups_by_frame_path_witness :
    searchWithCache (VectorCache.mk [1, 2] [[], []]) dbTieTwoFrames [] 100 0 =
      .ok tieExpected ∧
    (tieExpected.map (fun r => r.path)).Nodup :=
  ⟨rfl, (search_dedups_by_frame_path.1 (VectorCache.mk [1, 2] [[], []]) dbTieTwoFrames
    [] 100 0 tieExpected rfl).1⟩

/-- C4 counterexample: two embedding rows with equal scores (both 0
against the empty query) from distinct frames.  Embedding row id 1
(`a.jpg`) was inserted before row id 2 (`b.jpg`), yet the result list
ranks `b.jpg` first: `np.argsort(scores)[::-1]` reverses an ascending,
position-stable sort, so among equal scores the *later*-inserted row
ranks first — the claim's stable earlier-first tie-breaking (and, with
the tie itself, strictly descending order) fails. -/
theorem equal_scores_rank_later_insertion_first :
    (search none dbTieTwoFrames [] 100 0).1 = .ok tieExpected ∧
    tieExpected.map (fun r => r.path) = ["b.jpg", "a.jpg"] ∧
    tieExpected.map (fun r => r.confidence) = [0, 0] ∧
    dbTieTwoFrames.embeddings.map
        (fun e => (e.id, metaPath dbTieTwoFrames e.id)) =
      [(1, some "a.jpg"), (2, some "b.jpg")] :=
  ⟨rfl, by decide, by decide, by decide⟩

/-- C4 (amended): search results are ordered by non-increasing (not
strictly descending) similarity score and truncated to `limit` — facts
independent of how the argsort resolves score ties; and the tie-breaking
is *not* stable by insertion order: in the two-row regime, where
numpy's default argsort runs its small-array insertion sort and is
therefore position-stable, reversing it ranks the *later*-inserted row
first among equal scores (the counterexample's behaviour).  For larger
score arrays numpy's default quicksort argsort guarantees no particular
tie order, so no universal tie law is asserted. -/
theorem search_order_cap_and_reverse_ties :
    (∀ (cacheState : Option VectorCache) (db : DB) (q : List ℚ) (limit : Nat) (minC : ℚ)
      (rs : List SearchResult), (search cacheState db q limit minC).1 = .ok rs →
      rs.length ≤ limit ∧
      List.Pairwise (fun a b : SearchResult => b.confidence ≤ a.confidence) rs) ∧
    (∀ (v w q : List ℚ) (limit : Nat) (minC : ℚ),
      dot v q = dot w q → ¬ 0 < minC → 2 ≤ limit →
      topIdxScores [v, w] q limit minC = [(1, dot w q), (0, dot v q)]) := by
  constructor
  · intro cacheState db q limit minC rs h
    rcases search_ok_shape cacheState db q limit minC rs h with rfl | ⟨cache, hc⟩
    · simp
    · exact searchWithCache_ordered cache db q limit minC rs hc
  · intro v w q limit minC heq hminC hlimit
    have hdef : topIdxScores [v, w] q limit minC =
        ((List.insertionSort argsortRel
          (if 0 < minC then
            ([(0, dot v q), (1, dot w q)]).filter (fun p => decide (minC ≤ p.2))
           else [(0, dot v q), (1, dot w q)])).reverse).take limit := rfl
    have hrel : argsortRel (0, dot v q) (1, dot w q) := Or.inr ⟨heq, Nat.zero_le 1⟩
    rw [hdef, if_neg hminC]
    rw [show List.insertionSort argsortRel [(0, dot v q), (1, dot w q)] =
      List.orderedInsert argsortRel (0, dot v q) [(1, dot w q)] from rfl]
    rw [List.orderedInsert_of_le argsortRel _ hrel]
    rw [show ([(0, dot v q), (1, dot w q)] : List (Nat × ℚ)).reverse =
      [(1, dot w q), (0, dot v q)] from rfl]
    exact List.take_of_length_le (by simpa using hlimit)

/-- C4 witness: the tie-order-independent ordering facts applied at the
tie scenario (the hypothesis evaluates by `rfl`), and the two-row tie
rule applied at two zero-width rows with equal scores 0 — the
later-inserted row (position 1) comes first. -/
theorem search_order_cap_and_reverse_ties_witness :
    (tieExpected.length ≤ 100 ∧
      List.Pairwise (fun a b : SearchResult => b.confidence ≤ a.confidence) tieExpected) ∧
    topIdxScores [[], []] [] 100 0 = [(1, 0), (0, 0)] :=
  ⟨search_order_cap_and_reverse_ties.1 none dbTieTwoFrames [] 100 0 tieExpected rfl,
   search_order_cap_and_reverse_ties.2 [] [] [] 100 0 rfl (by decide) (by decide)⟩

/-- C5: `_parse_timestamp` tries, in order, native datetime passthrough;
numeric epoch — milliseconds (divided by 1000) exactly when the value
exceeds 1e12, seconds otherwise; the configured strftime pattern;
ISO-8601; the common fallback patterns; and a value matching none of
these raises a parse error which only skips that row — the surrounding
rows of the load are unaffected (shown both in general and on a concrete
two-row load where only the bad-timestamp row is dropped). -/
theorem parse_timestamp_order_and_row_skip :
    (∀ (δ : Type) (P : TimeParsers δ) (fmt : Option String) (d : δ),
      parse_timestamp P fmt (.dt d) = .ok d) ∧
    (∀ (δ : Type) (P : TimeParsers δ) (fmt : Option String) (x : ℚ),
      (1000000000000 : ℚ) < x →
      parse_timestamp P fmt (.num x) = .ok (P.fromtimestamp (x / 1000))) ∧
    (∀ (δ : Type) (P : TimeParsers δ) (fmt : Option String) (x : ℚ),
      ¬ (1000000000000 : ℚ) < x →
      parse_timestamp P fmt (.num x) = .ok (P.fromtimestamp x)) ∧
    (∀ (δ : Type) (P : TimeParsers δ) (f s : String) (d : δ),
      P.strptime s f = some d →
      parse_timestamp P (some f) (.str s) = .ok d) ∧
    (∀ (δ : Type) (P : TimeParsers δ) (fmt : Option String) (s : String) (d : δ),
      (∀ f, fmt = some f → P.strptime s f = none) →
      P.fromisoformat (s.replace "Z" "+00:00") = some d →
      parse_timestamp P fmt (.str s) = .ok d) ∧
    (∀ (δ : Type) (P : TimeParsers δ) (fmt : Option String) (s : String) (d : δ),
      (∀ f, fmt = some f → P.strptime s f = none) →
      P.fromisoformat (s.replace "Z" "+00:00") = none →
      commonFormats.findSome? (fun f => P.strptime s f) = some d →
      parse_timestamp P fmt (.str s) = .ok d) ∧
    (∀ (δ : Type) (P : TimeParsers δ) (fmt : Option String) (s : String),
      (∀ f, fmt = some f → P.strptime s f = none) →
      P.fromisoformat (s.replace "Z" "+00:00") = none →
      commonFormats.findSome? (fun f => P.strptime s f) = none →
      parse_timestamp P fmt (.str s) = .error ("Unable to parse timestamp: " ++ s)) ∧
    (∀ (δ : Type) (P : TimeParsers δ) (st : ConfigLoaderState δ)
      (fe : String → Bool) (row : PyVal δ) (l1 l2 : List (PyVal δ)),
      map_row_to_frame_metadata P st row = none →
      load_csv_rows P st fe (l1 ++ row :: l2) =
        load_csv_rows P st fe l1 ++ load_csv_rows P st fe l2) ∧
    (map_row_to_frame_metadata exampleParsers exampleLoaderState badTsRow = none ∧
     load_csv_rows exampleParsers exampleLoaderState (fun _ => true) [goodRow, badTsRow] =
       [goodRowMeta]) := by
  refine ⟨?_, ?_, ?_, ?_, ?_, ?_, ?_, ?_, rfl, rfl⟩
  · intro δ P fmt d
    rfl
  · intro δ P fmt x h
    show (if (1000000000000 : ℚ) < x then
        (Except.ok (P.fromtimestamp (x / 1000)) : Except String δ)
      else Except.ok (P.fromtimestamp x)) = Except.ok (P.fromtimestamp (x / 1000))
    rw [if_pos h]
  · intro δ P fmt x h
    show (if (1000000000000 : ℚ) < x then
        (Except.ok (P.fromtimestamp (x / 1000)) : Except String δ)
      else Except.ok (P.fromtimestamp x)) = Except.ok (P.fromtimestamp x)
    rw [if_neg h]
  · intro δ P f s d h
    simp [parse_timestamp, h]
  · intro δ P fmt s d hfmt hiso
    rcases fmt with _ | f
    · simp [parse_timestamp, hiso]
    · have h1 : P.strptime s f = none := hfmt f rfl
      simp [parse_timestamp, h1, hiso]
  · intro δ P fmt s d hfmt hiso hcommon
    rcases fmt with _ | f
    · simp [parse_timestamp, hiso, hcommon]
    · have h1 : P.strptime s f = none := hfmt f rfl
      simp [parse_timestamp, h1, hiso, hcommon]
  · intro δ P fmt s hfmt hiso hcommon
    rcases fmt with _ | f
    · simp [parse_timestamp, hiso, hcommon]
    · have h1 : P.strptime s f = none := hfmt f rfl
      simp [parse_timestamp, h1, hiso, hcommon]
  · intro δ P st fe row l1 l2 hrow
    simp [load_csv_rows, List.filterMap_append, List.filterMap_cons, hrow]

/-- C5 witness: the epoch-milliseconds case at a concrete value above
1e12 and the row-skip case at the concrete bad row. -/
theorem parse_timestamp_order_and_row_skip_witness :
    parse_timestamp exampleParsers none (.num 2000000000000) =
      .ok (exampleParsers.fromtimestamp ((2000000000000 : ℚ) / 1000)) ∧
    load_csv_rows exampleParsers exampleLoaderState (fun _ => true)
        ([goodRow] ++ badTsRow :: []) =
      load_csv_rows exampleParsers exampleLoaderState (fun _ => true) [goodRow] ++
        load_csv_rows exampleParsers exampleLoaderState (fun _ => true) [] :=
  ⟨parse_timestamp_order_and_row_skip.2.1 ℚ exampleParsers none 2000000000000 (by decide),
   parse_timestamp_order_and_row_skip.2.2.2.2.2.2.2.1 ℚ exampleParsers exampleLoaderState
     (fun _ => true) badTsRow [goodRow] [] rfl⟩

/-- Unfolding lemma for `List.isPrefixOf` on two conses. -/
theorem cons_isPrefixOf_cons_iff (c d : Char) (p l : List Char) :
    ((c :: p).isPrefixOf (d :: l)) = (c == d && p.isPrefixOf l) := rfl

/-- A nonempty pattern occurring as an infix puts its head character in
the text. -/
theorem hasInfix_head_mem (c : Char) (p : List Char) :
    ∀ l, hasInfixChars (c :: p) l = true → c ∈ l := by
  intro l
  induction l with
  | nil => intro h; simp [hasInfixChars] at h
  | cons d t ih =>
      intro h
      have hdef : hasInfixChars (c :: p) (d :: t) =
          ((c :: p).isPrefixOf (d :: t) || hasInfixChars (c :: p) t) := rfl
      rw [hdef, Bool.or_eq_true] at h
      rcases h with h | h
      · rw [cons_isPrefixOf_cons_iff, Bool.and_eq_true] at h
        have hc : c = d := beq_iff_eq.mp h.1
        rw [hc]
        exact List.mem_cons_self d t
      · exact List.mem_cons_of_mem d (ih h)

/-- Infix occurrence is preserved by extending the text on the left. -/
theorem hasInfix_cons_of (pat : List Char) (d : Char) (l : List Char)
    (h : hasInfixChars pat l = true) : hasInfixChars pat (d :: l) = true := by
  have hdef : hasInfixChars pat (d :: l) =
      (pat.isPrefixOf (d :: l) || hasInfixChars pat l) := rfl
  rw [hdef, Bool.or_eq_true]
  exact Or.inr h

/-- Splitting lemma for the frame tag: if `"::frame_"` occurs in
`l1 ++ l2` and `l2` contains no colon, then `"::"` already occurs in
`l1` (the tag cannot sit inside `l2`, and any occurrence straddling the
boundary would put a colon into `l2`). -/
theorem hasInfix_frame_tag_split (l2 : List Char) (h2 : ':' ∉ l2) :
    ∀ l1, hasInfixChars "::frame_".toList (l1 ++ l2) = true →
      hasInfixChars "::".toList l1 = true := by
  intro l1
  induction l1 with
  | nil =>
      intro h
      simp only [List.nil_append] at h
      have hpat : "::frame_".toList = ':' :: ":frame_".toList := rfl
      rw [hpat] at h
      exact absurd (hasInfix_head_mem ':' _ l2 h) h2
  | cons d t ih =>
      intro h
      have hdef : hasInfixChars "::frame_".toList ((d :: t) ++ l2) =
          ("::frame_".toList.isPrefixOf (d :: (t ++ l2)) ||
            hasInfixChars "::frame_".toList (t ++ l2)) := rfl
      rw [hdef, Bool.or_eq_true] at h
      rcases h with h | h
      · have hpat : "::frame_".toList = ':' :: ':' :: "frame_".toList := rfl
        rw [hpat, cons_isPrefixOf_cons_iff, Bool.and_eq_true] at h
        have hd : ':' = d := beq_iff_eq.mp h.1
        have h' := h.2
        rcases t with _ | ⟨e, t'⟩
        · simp only [List.nil_append] at h'
          have hmem : ':' ∈ l2 := by
            rcases l2 with _ | ⟨f, l2'⟩
            · simp [List.isPrefixOf] at h'
            · rw [cons_isPrefixOf_cons_iff, Bool.and_eq_true] at h'
              have hf : ':' = f := beq_iff_eq.mp h'.1
              rw [hf]
              exact List.mem_cons_self f l2'
          exact absurd hmem h2
        · rw [show (e :: t') ++ l2 = e :: (t' ++ l2) from rfl,
            cons_isPrefixOf_cons_iff, Bool.and_eq_true] at h'
          have he : ':' = e := beq_iff_eq.mp h'.1
          have hgoal : hasInfixChars "::".toList (d :: e :: t') =
              ("::".toList.isPrefixOf (d :: e :: t') ||
                hasInfixChars "::".toList (e :: t')) := rfl
          rw [hgoal, Bool.or_eq_true]
          left
          rw [show "::".toList = [':', ':'] from rfl, ← hd, ← he,
            cons_isPrefixOf_cons_iff, cons_isPrefixOf_cons_iff]
          simp [List.isPrefixOf]
      · exact hasInfix_cons_of _ d t (ih h)

/-- A Boolean prefix of an append is either a prefix of the first part,
or it swallows the whole first part and its remainder prefixes the
second. -/
theorem isPrefixOf_append_split (l2 : List Char) :
    ∀ (pat l1 : List Char), pat.isPrefixOf (l1 ++ l2) = true →
      pat.isPrefixOf l1 = true ∨
      (l1.isPrefixOf pat = true ∧ (pat.drop l1.length).isPrefixOf l2 = true) := by
  intro pat l1
  induction l1 generalizing pat with
  | nil =>
      intro h
      right
      exact ⟨by cases pat <;> rfl, h⟩
  | cons a t ih =>
      intro h
      rcases pat with _ | ⟨p, ps⟩
      · exact Or.inl rfl
      · rw [show (a :: t) ++ l2 = a :: (t ++ l2) from rfl,
          cons_isPrefixOf_cons_iff, Bool.and_eq_true] at h
        rcases ih ps h.2 with h3 | ⟨h3, h4⟩
        · left
          rw [cons_isPrefixOf_cons_iff, Bool.and_eq_true]
          exact ⟨h.1, h3⟩
        · right
          constructor
          · rw [cons_isPrefixOf_cons_iff, Bool.and_eq_true]
            exact ⟨(beq_iff_eq.mpr (beq_iff_eq.mp h.1).symm), h3⟩
          · exact h4

/-- A pattern containing no `c` and not prefixing `l1` cannot prefix
`l1 ++ c :: l2` either: it would have to straddle the boundary and put
`c` into itself. -/
theorem not_isPrefixOf_append_of_head (pat l1 l2 : List Char) (c : Char)
    (hc : c ∉ pat) (hnp : ¬ pat.isPrefixOf l1 = true) :
    ¬ pat.isPrefixOf (l1 ++ c :: l2) = true := by
  intro h
  rcases isPrefixOf_append_split (c :: l2) pat l1 h with h1 | ⟨h1, h2⟩
  · exact hnp h1
  · rcases hdrop : pat.drop l1.length with _ | ⟨e, rest⟩
    · have hsub : pat.length - l1.length = 0 := by
        rw [← List.length_drop, hdrop]
        rfl
      have hlen : pat.length ≤ l1.length := by omega
      have hpre : l1 <+: pat := ( List.isPrefixOf_iff_prefix).mp h1
      have heq : l1 = pat := hpre.eq_of_length (Nat.le_antisymm hpre.length_le hlen)
      rw [heq] at hnp
      exact hnp (( List.isPrefixOf_iff_prefix).mpr (List.prefix_refl pat))
    · rw [hdrop, cons_isPrefixOf_cons_iff, Bool.and_eq_true] at h2
      have he : e = c := beq_iff_eq.mp h2.1
      have hmem : e ∈ pat := List.drop_subset l1.length pat (hdrop ▸ List.mem_cons_self e rest)
      rw [he] at hmem
      exact hc hmem

/-- The digit renderer never emits a colon. -/
theorem digitChar10_ne_colon (d : Nat) : digitChar10 d ≠ ':' := by
  match d with
  | 0 | 1 | 2 | 3 | 4 | 5 | 6 | 7 | 8 => decide
  | n + 9 =>
      show ('9' : Char) ≠ ':'
      decide

/-- Rendered digit strings never contain a colon. -/
theorem colon_notin_natDigitsAux : ∀ fuel n, ':' ∉ natDigitsAux fuel n := by
  intro fuel
  induction fuel with
  | zero => intro n; simp [natDigitsAux]
  | succ f ih =>
      intro n
      rcases n with _ | m
      · simp [natDigitsAux]
      · intro hmem
        rw [show natDigitsAux (f + 1) (m + 1) =
          natDigitsAux f ((m + 1) / 10) ++ [digitChar10 ((m + 1) % 10)] from rfl] at hmem
        rcases List.mem_append.mp hmem with h | h
        · exact ih ((m + 1) / 10) h
        · rcases List.mem_singleton.mp h with h
          exact digitChar10_ne_colon ((m + 1) % 10) h.symm

/-- `natDigits` never contains a colon. -/
theorem colon_notin_natDigits (n : Nat) : ':' ∉ natDigits n := by
  unfold natDigits
  split
  · decide
  · exact colon_notin_natDigitsAux n n

/-- The two-decimal rendering never contains a colon: its alphabet is
digits, the dot and the sign. -/
theorem colon_notin_fmtTwoDec (q : ℚ) : ':' ∉ (fmtTwoDec q).toList := by
  have hmk : ∀ l : List Char, (String.mk l).toList = l := fun l => rfl
  unfold fmtTwoDec
  dsimp only
  split
  · rw [hmk]
    intro hmem
    rcases List.mem_cons.mp hmem with h | hmem
    · exact absurd h (by decide)
    · rcases List.mem_append.mp hmem with hmem | h
      · rcases List.mem_append.mp hmem with h | h
        · exact colon_notin_natDigits _ h
        · exact absurd (List.mem_singleton.mp h) (by decide)
      · rcases List.mem_cons.mp h with h | h
        · exact digitChar10_ne_colon _ h.symm
        · rcases List.mem_singleton.mp h with h
          exact digitChar10_ne_colon _ h.symm
  · rw [hmk]
    intro hmem
    rcases List.mem_append.mp hmem with hmem | h
    · rcases List.mem_append.mp hmem with h | h
      · exact colon_notin_natDigits _ h
      · exact absurd (List.mem_singleton.mp h) (by decide)
    · rcases List.mem_cons.mp h with h | h
      · exact digitChar10_ne_colon _ h.symm
      · rcases List.mem_singleton.mp h with h
        exact digitChar10_ne_colon _ h.symm

/-- C9: `get_source_type` classifies a path as `video` only when it
contains the substring `"::frame_"`; and the extractor's virtual paths
`"<videoPath>#t=<seconds>"` never acquire that substring (nor an
`s3://`/`azure://` scheme) from the appended suffix, so a frame saved
from a video-extracted input over an ordinary local video path is stored
with source type `local`, not `video`. -/
theorem video_source_type_needs_frame_tag :
    (∀ p : String, get_source_type p = "video" → pyContains p "::frame_" = true) ∧
    (∀ (videoPath : String) (ts : ℚ),
      pyContains videoPath "::" = false →
      pyStartsWith videoPath "s3://" = false →
      pyStartsWith videoPath "azure://" = false →
      get_source_type (mkVirtualPath videoPath ts) = "local") := by
  constructor
  · intro p h
    unfold get_source_type at h
    split_ifs at h with h1 h2 h3
    · exact absurd h (by decide)
    · exact absurd h (by decide)
    · exact h3
    · exact absurd h (by decide)
  · intro videoPath ts hnc hs3 haz
    have hlist : (mkVirtualPath videoPath ts).toList =
        videoPath.toList ++ '#' :: 't' :: '=' :: (fmtTwoDec ts).toList := by
      show (videoPath ++ "#t=" ++ fmtTwoDec ts).data =
        videoPath.data ++ '#' :: 't' :: '=' :: (fmtTwoDec ts).data
      rw [String.data_append, String.data_append]
      rw [show ("#t=" : String).data = ['#', 't', '='] from rfl]
      simp
    have hs3' : ¬ ("s3://".toList.isPrefixOf videoPath.toList) = true := by
      intro hcontra
      rw [show pyStartsWith videoPath "s3://" =
        "s3://".toList.isPrefixOf videoPath.toList from rfl, hcontra] at hs3
      exact Bool.noConfusion hs3
    have haz' : ¬ ("azure://".toList.isPrefixOf videoPath.toList) = true := by
      intro hcontra
      rw [show pyStartsWith videoPath "azure://" =
        "azure://".toList.isPrefixOf videoPath.toList from rfl, hcontra] at haz
      exact Bool.noConfusion haz
    have h1 : pyStartsWith (mkVirtualPath videoPath ts) "s3://" = false := by
      rw [show pyStartsWith (mkVirtualPath videoPath ts) "s3://" =
        "s3://".toList.isPrefixOf (mkVirtualPath videoPath ts).toList from rfl, hlist]
      exact Bool.eq_false_iff.mpr
        (not_isPrefixOf_append_of_head "s3://".toList videoPath.toList
          ('t' :: '=' :: (fmtTwoDec ts).toList) '#' (by decide) hs3')
    have h2 : pyStartsWith (mkVirtualPath videoPath ts) "azure://" = false := by
      rw [show pyStartsWith (mkVirtualPath videoPath ts) "azure://" =
        "azure://".toList.isPrefixOf (mkVirtualPath videoPath ts).toList from rfl, hlist]
      exact Bool.eq_false_iff.mpr
        (not_isPrefixOf_append_of_head "azure://".toList videoPath.toList
          ('t' :: '=' :: (fmtTwoDec ts).toList) '#' (by decide) haz')
    have h3 : pyContains (mkVirtualPath videoPath ts) "::frame_" = false := by
      rw [show pyContains (mkVirtualPath videoPath ts) "::frame_" =
        hasInfixChars "::frame_".toList (mkVirtualPath videoPath ts).toList from rfl, hlist]
      apply Bool.eq_false_iff.mpr
      intro hcontra
      have hcol : ':' ∉ ('#' :: 't' :: '=' :: (fmtTwoDec ts).toList) := by
        intro hmem
        simp only [List.mem_cons] at hmem
        rcases hmem with h | h | h | h
        · exact absurd h (by decide)
        · exact absurd h (by decide)
        · exact absurd h (by decide)
        · exact colon_notin_fmtTwoDec ts h
      have := hasInfix_frame_tag_split _ hcol videoPath.toList hcontra
      rw [show pyContains videoPath "::" =
        hasInfixChars "::".toList videoPath.toList from rfl, this] at hnc
      exact Bool.noConfusion hnc
    unfold get_source_type
    rw [h1, h2, h3]
    rfl

/-- C9 witness: the only-if direction at a path that does carry the tag,
and the classification of a concrete extractor-produced virtual path as
`local`. -/
theorem video_source_type_needs_frame_tag_witness :
    pyContains "clip.mp4::frame_7" "::frame_" = true ∧
    get_source_type (mkVirtualPath "/data/clip.mp4" 0) = "local" :=
  ⟨video_source_type_needs_frame_tag.1 "clip.mp4::frame_7" rfl,
   video_source_type_needs_frame_tag.2 "/data/clip.mp4" 0 (by decide) (by decide) (by decide)⟩

end Prism
